import Mathlib

/-!
Verification development for the judo terminal todo application.

The definitions below are a shallow embedding of the interaction engine:
the cursor text editor (`src/ui/cursor.rs`), the ratatui `ListState`
selection model used by the list/item components
(`src/ui/components/lists.rs`, `src/ui/components/items.rs`), the
application state and its screen-transition operations
(`src/app/state.rs`), and the key-event handlers (`src/app/events.rs`).

Rust strings are modelled as `List Char` together with their UTF-8 byte
layout, so that the byte-indexed `String::insert` / `String::remove`
operations (including their panic conditions on non-boundary indices)
are represented faithfully.  Operations that can panic in Rust return
`Option`, with `none` standing for a panic.
-/

/-- UTF-8 encoded size in bytes of a character, as in Rust's
`char::len_utf8`. -/
def utf8Size (c : Char) : Nat :=
  if c.toNat < 0x80 then 1
  else if c.toNat < 0x800 then 2
  else if c.toNat < 0x10000 then 3
  else 4

/-- Total UTF-8 byte length of a text, as in Rust's `str::len`. -/
def byteLen : List Char → Nat
  | [] => 0
  | c :: cs => utf8Size c + byteLen cs

/-- Interpret a byte index into a text: if the index falls on a UTF-8
character boundary (including the end of the text), return the
corresponding character index, otherwise `none` (the Rust byte-indexed
string operations panic in that case). -/
def boundaryCharIdx : List Char → Nat → Option Nat
  | _, 0 => some 0
  | [], _ + 1 => none
  | c :: cs, n + 1 =>
      if n + 1 < utf8Size c then none
      else (boundaryCharIdx cs (n + 1 - utf8Size c)).map (· + 1)

/-- Rust `String::insert(idx, c)`: inserts at byte index `idx`; panics
(`none`) unless `idx` lies on a character boundary and `idx ≤ len`. -/
def rustStringInsert (text : List Char) (idx : Nat) (c : Char) : Option (List Char) :=
  match boundaryCharIdx text idx with
  | none => none
  | some k => some (text.take k ++ c :: text.drop k)

/-- Rust `String::remove(idx)`: removes the character starting at byte
index `idx`; panics (`none`) unless `idx` lies on a character boundary
strictly inside the string. -/
def rustStringRemove (text : List Char) (idx : Nat) : Option (List Char) :=
  match boundaryCharIdx text idx with
  | none => none
  | some k =>
      if k < text.length then some (text.take k ++ text.drop (k + 1)) else none

/-- The input buffer owned by the application
(`InputState { current_input, cursor_pos, is_modifying }`, constructed
in `src/app/state.rs`; the struct itself lives outside `src/` but its
fields are fixed by the struct literals in `state.rs`). -/
structure InputStateM where
  current_input : List Char
  cursor_pos : Nat
  is_modifying : Bool
deriving DecidableEq, Repr

namespace InputStateM

/-- Modelled from the spec: `InputState::new()` (the constructor is not
under `src/`); per §3 the buffer starts cleared: empty text, cursor 0,
create semantics. -/
def new : InputStateM :=
  { current_input := [], cursor_pos := 0, is_modifying := false }

/-- Embedding of `CursorState::add_char` (src/ui/cursor.rs:20): calls
`String::insert(pos, c)` with `pos = cursor_pos`, i.e. the cursor
position is used as a *byte* index, then sets the cursor to `pos + 1`. -/
def add_char (s : InputStateM) (c : Char) : Option InputStateM :=
  match rustStringInsert s.current_input s.cursor_pos c with
  | none => none
  | some t => some { s with current_input := t, cursor_pos := s.cursor_pos + 1 }

/-- Embedding of `CursorState::remove_char_before_cursor` (src/ui/cursor.rs:27):
if `pos > 0`, calls `String::remove(pos - 1)` (byte index) and sets the
cursor to `pos - 1`; otherwise a no-op. -/
def remove_char_before_cursor (s : InputStateM) : Option InputStateM :=
  if s.cursor_pos > 0 then
    match rustStringRemove s.current_input (s.cursor_pos - 1) with
    | none => none
    | some t => some { s with current_input := t, cursor_pos := s.cursor_pos - 1 }
  else some s

/-- Embedding of `CursorState::delete_char_after_cursor` (src/ui/cursor.rs:36):
works on the `chars()` sequence, removing the character at character
index `pos` when `pos < char_count`; cursor unchanged. -/
def delete_char_after_cursor (s : InputStateM) : InputStateM :=
  if s.cursor_pos < s.current_input.length then
    { s with
      current_input :=
        s.current_input.take s.cursor_pos ++ s.current_input.drop (s.cursor_pos + 1) }
  else s

/-- Embedding of `CursorState::move_cursor_left` (src/ui/cursor.rs:48). -/
def move_cursor_left (s : InputStateM) : InputStateM :=
  if s.cursor_pos > 0 then { s with cursor_pos := s.cursor_pos - 1 } else s

/-- Embedding of `CursorState::move_cursor_right` (src/ui/cursor.rs:56): advances
only when `pos < char_count`. -/
def move_cursor_right (s : InputStateM) : InputStateM :=
  if s.cursor_pos < s.current_input.length then
    { s with cursor_pos := s.cursor_pos + 1 }
  else s

/-- Embedding of `CursorState::clear` (src/ui/cursor.rs:65): empties the text and
resets the cursor; `is_modifying` is not touched. -/
def clear (s : InputStateM) : InputStateM :=
  { s with current_input := [], cursor_pos := 0 }

end InputStateM

/-- C1: For every buffer text and every cursor position in
[0, char_count(text)], each cursor-editor operation succeeds without
error or panic, and add_char places the inserted character at the
character offset cursor_pos, also for multi-byte text.  This FAILS on
the code: `add_char` passes the character-offset cursor to the
byte-indexed `String::insert`.  Starting from an empty buffer, typing
the two-byte character é (U+00E9) succeeds and leaves the cursor at
character offset 1 (a valid position, `1 ≤ char_count`), but typing a
second character then calls `String::insert(1, _)` on a string whose
sole character occupies bytes 0..2, a non-boundary index: the code
panics (`none`) where the claim requires the result "éa". -/
theorem c1_add_char_panics_on_multibyte :
    InputStateM.add_char { current_input := [], cursor_pos := 0, is_modifying := false } 'é'
      = some { current_input := ['é'], cursor_pos := 1, is_modifying := false } ∧
    (1 : Nat) ≤ (['é'] : List Char).length ∧
    InputStateM.add_char { current_input := ['é'], cursor_pos := 1, is_modifying := false } 'a'
      = none := by
  refine ⟨rfl, by decide, rfl⟩

/-- Embedding of `usize::MAX` on a 64-bit target; ratatui's `ListState` stores the
selection as `Option<usize>` and uses saturating arithmetic on it. -/
def USIZE_MAX : Nat := 2 ^ 64 - 1

/-- The selection half of ratatui's `ListState` (the external widget
state used by `ListsComponent::list_state` and `UIList::item_state`).
Only the `selected` field is modelled; the scroll `offset` never feeds
back into the handlers. -/
structure RListState where
  selected : Option Nat
deriving DecidableEq, Repr

namespace RListState

/-- ratatui `ListState::select`. -/
def select (_s : RListState) (o : Option Nat) : RListState :=
  { selected := o }

/-- ratatui `ListState::select_next`: `selected.map_or(0, saturating_add 1)`;
the state has no knowledge of the collection length, so at the end of the
collection this moves past it (the widget clamps on render). -/
def select_next (s : RListState) : RListState :=
  s.select (some (match s.selected with
    | none => 0
    | some i => min (i + 1) USIZE_MAX))

/-- ratatui `ListState::select_previous`:
`selected.map_or(usize::MAX, saturating_sub 1)`; no wraparound at 0. -/
def select_previous (s : RListState) : RListState :=
  s.select (some (match s.selected with
    | none => USIZE_MAX
    | some i => i - 1))

/-- ratatui `ListState::select_first`. -/
def select_first (s : RListState) : RListState :=
  s.select (some 0)

/-- ratatui `ListState::select_last`: selects `usize::MAX`, clamped to
the last item on render. -/
def select_last (s : RListState) : RListState :=
  s.select (some USIZE_MAX)

/-- ratatui `ListState::scroll_down_by(amount: u16)`: saturating add on
the selected index, selecting 0 when nothing was selected. -/
def scroll_down_by (s : RListState) (amount : Nat) : RListState :=
  s.select (some (match s.selected with
    | none => 0
    | some i => min (i + amount) USIZE_MAX))

/-- ratatui `ListState::scroll_up_by(amount: u16)`: saturating sub on
the selected index, selecting 0 when nothing was selected. -/
def scroll_up_by (s : RListState) (amount : Nat) : RListState :=
  s.select (some (match s.selected with
    | none => 0
    | some i => i - amount))

end RListState

/-- The clamp ratatui's `List` widget applies to its `ListState` when it
is rendered (which the main loop does before reading each key event):
an empty list deselects, an out-of-bounds index is clamped to the last
item. -/
def renderClamp (len : Nat) (s : RListState) : RListState :=
  if len = 0 then { selected := none }
  else { selected := s.selected.map (fun i => min i (len - 1)) }

/-- The SelectionState invariant of spec §3, as a decidable predicate:
a present index must be `< length` (hence absent whenever the
collection is empty). -/
def selInvariantB (len : Nat) (sel : Option Nat) : Bool :=
  match sel with
  | none => true
  | some i => i < len

/-- A todo item as the interaction engine sees it (name and done flag;
id, priority, due date and timestamps are opaque to the core). -/
structure ItemM where
  name : List Char
  is_done : Bool
deriving DecidableEq, Repr

/-- Embedding of `UIList` (src/db/models.rs): a list with its cached items and the
per-list item selection state. -/
structure UIListM where
  name : List Char
  items : List ItemM
  item_state : RListState
deriving DecidableEq, Repr

/-- Embedding of `ListsComponent` (src/ui/components/lists.rs): the ordered
collection of lists plus its selection state. -/
structure ListsComponentM where
  lists : List UIListM
  list_state : RListState
deriving DecidableEq, Repr

namespace ListsComponentM

/-- Embedding of `ListsComponent::select_next` (src/ui/components/lists.rs:40). -/
def select_next (c : ListsComponentM) : ListsComponentM :=
  { c with list_state := c.list_state.select_next }

/-- Embedding of `ListsComponent::select_previous` (src/ui/components/lists.rs:45). -/
def select_previous (c : ListsComponentM) : ListsComponentM :=
  { c with list_state := c.list_state.select_previous }

/-- Embedding of `ListsComponent::selected` (src/ui/components/lists.rs:50). -/
def selected (c : ListsComponentM) : Option Nat :=
  c.list_state.selected

/-- Embedding of `ListsComponent::get_selected_list` (src/ui/components/lists.rs:91):
`lists.get(i)` for the selected `i`, `None` when nothing is selected. -/
def get_selected_list (c : ListsComponentM) : Option UIListM :=
  match c.list_state.selected with
  | some i => c.lists.get? i
  | none => none

/-- Replace the list at the selected index (helper for modelling
mutations of the selected list through `get_selected_list_mut`). -/
def set_selected_list (c : ListsComponentM) (l : UIListM) : ListsComponentM :=
  match c.list_state.selected with
  | some i => { c with lists := c.lists.set i l }
  | none => c

end ListsComponentM

/-- Embedding of `App::select_previous_db` (src/app/state.rs:379): wraps from 0 to
`len - 1`; no-op when the database collection is empty. -/
def selectPreviousDbIdx (dbs : List (List Char)) (idx : Nat) : Nat :=
  if dbs.isEmpty then idx
  else if idx = 0 then dbs.length - 1
  else idx - 1

/-- Embedding of `App::select_next_db` (src/app/state.rs:391): `(idx + 1) % len`;
no-op when the database collection is empty. -/
def selectNextDbIdx (dbs : List (List Char)) (idx : Nat) : Nat :=
  if dbs.isEmpty then idx
  else (idx + 1) % dbs.length

/-- Embedding of `App::add_number_modifier` (src/app/state.rs:179): the modifier is a
`u16`; if the *previous* value exceeds `lists.len() as u16`, it is first
clamped to that length, then `modifier = modifier * 10 + digit`
(u16 arithmetic, modelled mod 2^16). -/
def add_number_modifier (m : Nat) (listsLen : Nat) (d : Nat) : Nat :=
  ((if m > listsLen % 65536 then listsLen % 65536 else m) * 10 + d) % 65536

/-- Insert `x` at position `k` of `xs` (`xs.take k ++ x :: xs.drop k`),
the in-memory effect of re-sequencing an entity to a new slot. -/
def insertAt (x : α) (k : Nat) (xs : List α) : List α :=
  xs.take k ++ x :: xs.drop k

theorem length_insertAt (x : α) (k : Nat) (xs : List α) (h : k ≤ xs.length) :
    (insertAt x k xs).length = xs.length + 1 := by
  simp [insertAt]
  omega

namespace ListsComponentM

/-- In-memory semantics of `ListsComponent::delete_selected_list`
(src/ui/components/lists.rs:63) on storage success: `self.lists[i]`
(panic when out of bounds), delegated delete, authoritative reload
(the collection minus the deleted list), then the selection clamp:
absent when now empty, last index when the old index fell off the end,
otherwise unchanged. -/
def delete_selected_list_mem (c : ListsComponentM) : Option ListsComponentM :=
  match c.list_state.selected with
  | none => some c
  | some i =>
      if i < c.lists.length then
        let lists2 := c.lists.eraseIdx i
        some { lists := lists2,
               list_state :=
                 if lists2.isEmpty then { selected := none }
                 else if lists2.length ≤ i then { selected := some (lists2.length - 1) }
                 else c.list_state }
      else none

end ListsComponentM

namespace ItemsComponentM

/-- Embedding of `ItemsComponent::select_next_item` (src/ui/components/items.rs:52). -/
def select_next_item (l : UIListM) : UIListM :=
  { l with item_state := l.item_state.select_next }

/-- Embedding of `ItemsComponent::select_previous_item` (src/ui/components/items.rs:62). -/
def select_previous_item (l : UIListM) : UIListM :=
  { l with item_state := l.item_state.select_previous }

/-- Embedding of `ItemsComponent::scroll_down_by` (src/ui/components/items.rs:57):
truncates the amount with `as u16` before delegating. -/
def scroll_down_by (l : UIListM) (amount : Nat) : UIListM :=
  { l with item_state := l.item_state.scroll_down_by (amount % 65536) }

/-- Embedding of `ItemsComponent::scroll_up_by` (src/ui/components/items.rs:67):
truncates the amount with `as u16` before delegating. -/
def scroll_up_by (l : UIListM) (amount : Nat) : UIListM :=
  { l with item_state := l.item_state.scroll_up_by (amount % 65536) }

/-- Embedding of `ItemsComponent::remove_item_selection` (src/ui/components/items.rs:72). -/
def remove_item_selection (l : UIListM) : UIListM :=
  { l with item_state := l.item_state.select none }

/-- Embedding of `ItemsComponent::select_first` (src/ui/components/items.rs:76). -/
def select_first (l : UIListM) : UIListM :=
  { l with item_state := l.item_state.select_first }

/-- Embedding of `ItemsComponent::select_first_item` (src/ui/components/items.rs:85):
only jumps when nothing is selected yet. -/
def select_first_item (l : UIListM) : UIListM :=
  match l.item_state.selected with
  | none => { l with item_state := l.item_state.select_first }
  | some _ => l

/-- In-memory semantics of `ItemsComponent::delete_selected_item`
(src/ui/components/items.rs:133) on storage success: `items[j]` (panic
when out of bounds), delegated delete, reload, then the same selection
clamp as for lists. -/
def delete_selected_item_mem (l : UIListM) : Option UIListM :=
  match l.item_state.selected with
  | none => some l
  | some j =>
      if j < l.items.length then
        let items2 := l.items.eraseIdx j
        some { l with
               items := items2,
               item_state :=
                 if items2.isEmpty then { selected := none }
                 else if items2.length ≤ j then { selected := some (items2.length - 1) }
                 else l.item_state }
      else none

/-- In-memory semantics of `ItemsComponent::move_selected_item_up_by`
(src/ui/components/items.rs:168) on storage success: clamps the amount
to `j` (`real_amount = min amount j`), `items[j]` (panic when out of
bounds), delegated move past `real_amount` neighbours, reload, and
selection follows to `j - real_amount` when `j > 0`. -/
def move_selected_item_up_by_mem (l : UIListM) (amount : Nat) : Option UIListM :=
  match l.item_state.selected with
  | none => some l
  | some j =>
      let real := if amount > j then j else amount
      if h : j < l.items.length then
        let items2 := insertAt (l.items.get ⟨j, h⟩) (j - real) (l.items.eraseIdx j)
        some { l with
               items := items2,
               item_state :=
                 if j > 0 then { selected := some (j - real) } else l.item_state }
      else none

/-- In-memory semantics of `ItemsComponent::move_selected_item_down_by`
(src/ui/components/items.rs:207) on storage success: clamps the amount
to the room below (`real_amount = min amount (len - 1 - j)`; the
subtraction `len - j - 1` underflows when `j ≥ len`, where `items[j]`
panics as well), delegated move, reload, and selection follows to
`j + real_amount` when that stays in range. -/
def move_selected_item_down_by_mem (l : UIListM) (amount : Nat) : Option UIListM :=
  match l.item_state.selected with
  | none => some l
  | some j =>
      if h : j < l.items.length then
        let real :=
          if amount > l.items.length - j - 1 then l.items.length - j - 1 else amount
        let items2 := insertAt (l.items.get ⟨j, h⟩) (j + real) (l.items.eraseIdx j)
        some { l with
               items := items2,
               item_state :=
                 if j + real < l.items.length then { selected := some (j + real) }
                 else l.item_state }
      else none

end ItemsComponentM

/-- C4: the claim that every mutating operation preserves the
SelectionState invariant FAILS on the code: the navigation operations
are ratatui `ListState` calls that know nothing about the collection
length.  On an empty lists collection (which satisfies the invariant
with no selection), `ListsComponent::select_next` selects index 0,
violating "if the collection is empty, the index must be absent". -/
theorem c4_select_next_breaks_invariant_on_empty :
    selInvariantB ([] : List UIListM).length ({ selected := none } : RListState).selected = true ∧
    selInvariantB ([] : List UIListM).length
      (ListsComponentM.select_next
        { lists := [], list_state := { selected := none } }).list_state.selected = false := by
  constructor
  · rfl
  · rfl

/-- C4 (amended): the selection-index navigation operations may leave
the index out of bounds (or present on an empty collection), and the
invariant is re-established by the clamp the ratatui `List` widget
applies when the frame is rendered — which the main loop does before
reading the next key event.  The storage-backed mutations that adjust
the selection themselves (delete of the selected list or item, counted
item reorder) do preserve the invariant directly. -/
theorem c4_amended_selection_invariant :
    (∀ len st, selInvariantB len (renderClamp len st).selected = true) ∧
    (∀ c c2 : ListsComponentM, ListsComponentM.delete_selected_list_mem c = some c2 →
        selInvariantB c.lists.length c.list_state.selected = true →
        selInvariantB c2.lists.length c2.list_state.selected = true) ∧
    (∀ l l2 : UIListM, ItemsComponentM.delete_selected_item_mem l = some l2 →
        selInvariantB l.items.length l.item_state.selected = true →
        selInvariantB l2.items.length l2.item_state.selected = true) ∧
    (∀ (l l2 : UIListM) (n : Nat), ItemsComponentM.move_selected_item_up_by_mem l n = some l2 →
        selInvariantB l.items.length l.item_state.selected = true →
        selInvariantB l2.items.length l2.item_state.selected = true) ∧
    (∀ (l l2 : UIListM) (n : Nat), ItemsComponentM.move_selected_item_down_by_mem l n = some l2 →
        selInvariantB l.items.length l.item_state.selected = true →
        selInvariantB l2.items.length l2.item_state.selected = true) := by
  refine ⟨?_, ?_, ?_, ?_, ?_⟩
  · intro len st
    unfold renderClamp
    split
    · rfl
    · cases h : st.selected with
      | none => rfl
      | some i =>
          simp [selInvariantB]
          omega
  · intro c c2 h hinv
    rcases hsel : c.list_state.selected with _ | i
    · simp [ListsComponentM.delete_selected_list_mem, hsel] at h
      rw [← h]
      exact hinv
    · rw [hsel] at hinv
      by_cases hi : i < c.lists.length
      · have hlen := List.length_eraseIdx (l := c.lists) (i := i)
        rw [if_pos hi] at hlen
        simp only [ListsComponentM.delete_selected_list_mem, hsel, if_pos hi,
          Option.some.injEq] at h
        rw [← h]
        by_cases he : (c.lists.eraseIdx i).isEmpty
        · simp [he, selInvariantB]
        · have hne : c.lists.eraseIdx i ≠ [] := by
            simpa [List.isEmpty_iff] using he
          have hpos : 0 < (c.lists.eraseIdx i).length :=
            List.length_pos.mpr hne
          by_cases hle : (c.lists.eraseIdx i).length ≤ i
          · simp [he, hle, selInvariantB]
            omega
          · simp [he, hle, hsel, selInvariantB]
            omega
      · simp [ListsComponentM.delete_selected_list_mem, hsel, hi] at h
  · intro l l2 h hinv
    rcases hsel : l.item_state.selected with _ | j
    · simp [ItemsComponentM.delete_selected_item_mem, hsel] at h
      rw [← h]
      exact hinv
    · rw [hsel] at hinv
      by_cases hj : j < l.items.length
      · have hlen := List.length_eraseIdx (l := l.items) (i := j)
        rw [if_pos hj] at hlen
        simp only [ItemsComponentM.delete_selected_item_mem, hsel, if_pos hj,
          Option.some.injEq] at h
        rw [← h]
        by_cases he : (l.items.eraseIdx j).isEmpty
        · simp [he, selInvariantB]
        · have hne : l.items.eraseIdx j ≠ [] := by
            simpa [List.isEmpty_iff] using he
          have hpos : 0 < (l.items.eraseIdx j).length :=
            List.length_pos.mpr hne
          by_cases hle : (l.items.eraseIdx j).length ≤ j
          · simp [he, hle, selInvariantB]
            omega
          · simp [he, hle, hsel, selInvariantB]
            omega
      · simp [ItemsComponentM.delete_selected_item_mem, hsel, hj] at h
  · intro l l2 n h hinv
    rcases hsel : l.item_state.selected with _ | j
    · simp [ItemsComponentM.move_selected_item_up_by_mem, hsel] at h
      rw [← h]
      exact hinv
    · rw [hsel] at hinv
      simp only [selInvariantB, decide_eq_true_eq] at hinv
      by_cases hj : j < l.items.length
      · set real := if n > j then j else n with hreal
        have hrle : real ≤ j := by
          rw [hreal]; split <;> omega
        have hlen := List.length_eraseIdx (l := l.items) (i := j)
        rw [if_pos hj] at hlen
        simp only [ItemsComponentM.move_selected_item_up_by_mem, hsel, dif_pos hj,
          Option.some.injEq] at h
        rw [← h]
        have hlen2 : (insertAt (l.items.get ⟨j, hj⟩) (j - real) (l.items.eraseIdx j)).length
            = l.items.length := by
          rw [length_insertAt]
          · omega
          · rw [hlen]; omega
        dsimp only
        rw [hlen2]
        by_cases hj0 : j > 0
        · simp [hj0, selInvariantB]
          omega
        · simp [hj0, hsel, selInvariantB]
          omega
      · simp [ItemsComponentM.move_selected_item_up_by_mem, hsel, hj] at h
  · intro l l2 n h hinv
    rcases hsel : l.item_state.selected with _ | j
    · simp [ItemsComponentM.move_selected_item_down_by_mem, hsel] at h
      rw [← h]
      exact hinv
    · rw [hsel] at hinv
      simp only [selInvariantB, decide_eq_true_eq] at hinv
      by_cases hj : j < l.items.length
      · set real := if n > l.items.length - j - 1 then l.items.length - j - 1 else n with hreal
        have hrle : j + real ≤ l.items.length - 1 := by
          rw [hreal]; split <;> omega
        have hlen := List.length_eraseIdx (l := l.items) (i := j)
        rw [if_pos hj] at hlen
        simp only [ItemsComponentM.move_selected_item_down_by_mem, hsel, dif_pos hj,
          Option.some.injEq] at h
        rw [← h]
        have hlen2 : (insertAt (l.items.get ⟨j, hj⟩) (j + real) (l.items.eraseIdx j)).length
            = l.items.length := by
          rw [length_insertAt]
          · omega
          · rw [hlen]; omega
        dsimp only
        rw [hlen2]
        by_cases hin : j + real < l.items.length
        · simp [hin, selInvariantB]
        · simp [hin, hsel, selInvariantB]
          omega
      · simp [ItemsComponentM.move_selected_item_down_by_mem, hsel, hj] at h

/-- Witness for `c4_amended_selection_invariant`: deleting the selected
(single) list of a one-element collection yields an empty collection
with the selection absent, satisfying the invariant. -/
theorem c4_amended_selection_invariant_witness :
    selInvariantB
      (ListsComponentM.mk [] { selected := none }).lists.length
      (ListsComponentM.mk [] { selected := none }).list_state.selected = true :=
  c4_amended_selection_invariant.2.1
    { lists := [{ name := ['A'], items := [], item_state := { selected := none } }],
      list_state := { selected := some 0 } }
    { lists := [], list_state := { selected := none } }
    (by decide) (by decide)

/-- C5: the claim that select_next/select_previous wrap around FAILS on
the code for the list/item collections: they delegate to ratatui's
`ListState`, which saturates.  On a two-list collection with the last
list (index 1) selected, the claim requires select_next to move to
`(1 + 1) % 2 = 0`; the code moves the raw index to 2, which the render
clamp pulls back to 1 — the selection never reaches 0. -/
theorem c5_select_next_does_not_wrap :
    ((1 + 1) % 2 : Nat) = 0 ∧
    (ListsComponentM.select_next
      { lists := [{ name := ['A'], items := [], item_state := { selected := none } },
                  { name := ['B'], items := [], item_state := { selected := none } }],
        list_state := { selected := some 1 } }).list_state.selected = some 2 ∧
    (renderClamp 2
      (ListsComponentM.select_next
        { lists := [{ name := ['A'], items := [], item_state := { selected := none } },
                    { name := ['B'], items := [], item_state := { selected := none } }],
          list_state := { selected := some 1 } }).list_state).selected = some 1 := by
  refine ⟨rfl, ?_, ?_⟩ <;> decide

/-- C5 (amended): only the database selection wraps around
(`(i + 1) % len` forward, `len - 1` when retreating from 0, no-op on an
empty collection).  The list/item collections saturate instead: with
index `i` selected, select_next lands on `min (i + 1) (len - 1)` after
the render clamp and select_previous lands on `i - 1` (staying at 0
rather than wrapping to `len - 1`); on an empty collection the
navigation calls select index 0 or `usize::MAX`, and the selection is
absent again after the render clamp. -/
theorem c5_amended_wraparound :
    (∀ len i, i < len → len ≤ USIZE_MAX →
        (renderClamp len (RListState.select_next { selected := some i })).selected
          = some (min (i + 1) (len - 1))) ∧
    (∀ i, (RListState.select_previous { selected := some i }).selected = some (i - 1)) ∧
    (∀ st, (renderClamp 0 (RListState.select_next st)).selected = none ∧
           (renderClamp 0 (RListState.select_previous st)).selected = none) ∧
    (∀ dbs idx, dbs ≠ [] → selectNextDbIdx dbs idx = (idx + 1) % dbs.length) ∧
    (∀ dbs, dbs ≠ [] → selectPreviousDbIdx dbs 0 = dbs.length - 1) ∧
    (∀ dbs idx, dbs ≠ [] → idx ≠ 0 → selectPreviousDbIdx dbs idx = idx - 1) ∧
    (∀ idx, selectNextDbIdx [] idx = idx ∧ selectPreviousDbIdx [] idx = idx) := by
  refine ⟨?_, ?_, ?_, ?_, ?_, ?_, ?_⟩
  · intro len i hi hmax
    have hlen0 : len ≠ 0 := by omega
    unfold renderClamp RListState.select_next RListState.select
    rw [if_neg hlen0]
    dsimp
    congr 1
    omega
  · intro i
    rfl
  · intro st
    constructor <;> rfl
  · intro dbs idx hne
    simp [selectNextDbIdx, List.isEmpty_iff, hne]
  · intro dbs hne
    simp [selectPreviousDbIdx, List.isEmpty_iff, hne]
  · intro dbs idx hne hidx
    simp [selectPreviousDbIdx, List.isEmpty_iff, hne, hidx]
  · intro idx
    constructor <;> rfl

/-- Witness for `c5_amended_wraparound`: from index 0 of a two-element
collection, select_next plus the render clamp lands on
`min (0 + 1) (2 - 1)` (= 1). -/
theorem c5_amended_wraparound_witness :
    (renderClamp 2 (RListState.select_next { selected := some 0 })).selected
      = some (min (0 + 1) (2 - 1)) :=
  c5_amended_wraparound.1 2 0 (by decide) (by decide)

/-- C6: the claim that the accumulated modifier is clamped so that it
never exceeds the number of entries in the active collection FAILS on
the code: `App::add_number_modifier` compares the *previous* value
against the length before accumulating, so a single digit keypress
already produces a value above the collection size.  With 3 lists and a
fresh modifier, pressing '9' yields 9 > 3. -/
theorem c6_modifier_exceeds_collection :
    add_number_modifier 0 3 9 = 9 ∧ 3 < 9 := by
  refine ⟨rfl, by decide⟩

/-- C6 (amended): each digit press first clamps the *previous* value to
the number of lists (`lists.len() as u16`, regardless of which
collection is active), then accumulates `modifier * 10 + digit` in u16
arithmetic.  Consequently the stored value is bounded by
`10 * (len mod 2^16) + 9` rather than by the collection size. -/
theorem c6_amended_modifier_clamp :
    (∀ m L d, m ≤ L % 65536 → add_number_modifier m L d = (m * 10 + d) % 65536) ∧
    (∀ m L d, m > L % 65536 → add_number_modifier m L d = ((L % 65536) * 10 + d) % 65536) ∧
    (∀ m L d, d ≤ 9 → add_number_modifier m L d ≤ 10 * (L % 65536) + 9) := by
  refine ⟨?_, ?_, ?_⟩
  · intro m L d h
    unfold add_number_modifier
    rw [if_neg (by omega)]
  · intro m L d h
    unfold add_number_modifier
    rw [if_pos h]
  · intro m L d h
    unfold add_number_modifier
    split <;>
      calc _ ≤ _ := Nat.mod_le _ _
        _ ≤ 10 * (L % 65536) + 9 := by omega

/-- Witness for `c6_amended_modifier_clamp`: pressing '9' with 3 lists
and a zero modifier stays within the amended bound. -/
theorem c6_amended_modifier_clamp_witness :
    add_number_modifier 0 3 9 ≤ 10 * (3 % 65536) + 9 :=
  c6_amended_modifier_clamp.2.2 0 3 9 (by decide)

/-- Embedding of `CurrentScreen` (src/app/state.rs:23). -/
inductive ScreenM where
  | dbSelection
  | listSelection
  | itemSelection
  | addList
  | modifyList
  | addItem
  | modifyItem
  | addDB
  | modifyDB
  | help
  | leaderHelp
  | deleteListConfirmation
  | deleteDatabaseConfirmation
deriving DecidableEq, Repr

/-- Key codes of the crossterm events the handlers match on. -/
inductive KeyCodeM where
  | char (c : Char)
  | up
  | down
  | left
  | right
  | tab
  | backTab
  | enter
  | esc
  | backspace
  | del
  | other
deriving DecidableEq, Repr

/-- A key-press event: code plus SHIFT / CONTROL modifier bits. -/
structure KeyEventM where
  code : KeyCodeM
  shift : Bool
  ctrl : Bool
deriving DecidableEq, Repr

/-- Calls the interaction engine delegates to the storage collaborator
(database ops in src/db, config writes for the database registry);
recorded as an effect trace by the step function.  `deleteDb` stands
for `App::delete_selected_db`'s removal of the entry from the config
registry and the config rewrite. -/
inductive StorageCall where
  | createList (name : List Char)
  | renameList (name : List Char)
  | deleteList (name : List Char)
  | createItem (name : List Char)
  | renameItem (name : List Char)
  | deleteItem (name : List Char)
  | toggleItem (name : List Char)
  | moveListUp
  | moveListDown
  | moveItemUpBy (n : Nat)
  | moveItemDownBy (n : Nat)
  | initDb (name : List Char)
  | writeConfig
  | deleteDb (name : List Char)
deriving DecidableEq, Repr

/-- The `App` state (src/app/state.rs:53) restricted to the fields the
key handlers read or write; the databases of the config registry are
represented by their names. -/
structure AppM where
  current_screen : ScreenM
  last_active_screen : ScreenM
  exit : Bool
  awaiting_second_g : Bool
  leader_awaiting : Bool
  number_modifier : Nat
  keys_buffer : List (List Char × Bool)
  lists_component : ListsComponentM
  input_state : InputStateM
  dbs : List (List Char)
  config_default : List Char
  current_db_name : List Char
  selected_db_index : Nat
  pending_delete_list_name : Option (List Char)
  pending_delete_db_name : Option (List Char)
deriving DecidableEq, Repr

/-- Embedding of `EventHandler::format_keycode_for_buffer` (src/app/events.rs:9):
yields the on-screen label and a flag that is `false` exactly for ASCII
digits and unformatted keys. -/
def format_keycode_for_buffer (key : KeyEventM) : List Char × Bool :=
  if key.ctrl ∧ key.code = KeyCodeM.char 'h' then
    (['C', 't', 'r', 'l', ' ', '+', ' ', 'h'], true)
  else
    match key.code with
    | .char c =>
        if c = ' ' then (['␣'], true)
        else if c.isDigit then ([c], false)
        else ([c], true)
    | .up => (['↑'], true)
    | .down => (['↓'], true)
    | .left => (['←'], true)
    | .right => (['→'], true)
    | .tab => (['T', 'a', 'b'], true)
    | .backTab => (['S', 'h', 'i', 'f', 't', ' ', '+', ' ', 'T', 'a', 'b'], true)
    | .enter => (['E', 'n', 't', 'e', 'r'], true)
    | .esc => (['E', 's', 'c'], true)
    | _ => ([], false)

/-- Embedding of `App::add_key_to_buffer` (src/app/state.rs:143): the buffer is
cleared before the push unless the previous key was invisible (a digit)
and the new key is one of the repeat-compatible `k`/`j`/`K`/`J`. -/
def add_key_to_buffer (buf : List (List Char × Bool)) (key : List Char) (visible : Bool) :
    List (List Char × Bool) :=
  let buf2 :=
    match buf.getLast? with
    | some (_, lastVisible) =>
        if lastVisible ∨ ¬ (key ∈ [['k'], ['j'], ['K'], ['J']]) then [] else buf
    | none => buf
  buf2 ++ [(key, visible)]

/-- The three primary screens checked by the global-key handler. -/
def mainScreens : List ScreenM :=
  [ScreenM.listSelection, ScreenM.itemSelection, ScreenM.dbSelection]

/-- Tab ring (src/app/events.rs:48). -/
def tabNext : ScreenM → ScreenM
  | .listSelection => .itemSelection
  | .itemSelection => .dbSelection
  | .dbSelection => .listSelection
  | _ => .listSelection

/-- Shift+Tab ring (src/app/events.rs:56). -/
def backTabNext : ScreenM → ScreenM
  | .listSelection => .dbSelection
  | .itemSelection => .listSelection
  | .dbSelection => .itemSelection
  | _ => .listSelection

/-- Tail of `EventHandler::matches_global_keys` (src/app/events.rs:83):
the final `match key.code` with arms for `q`, Ctrl+`h`, `Esc`, digits
and the leader space; every unlisted key is unconsumed. -/
def globalTail (app : AppM) (key : KeyEventM) : Bool × AppM :=
  match key.code with
  | .char c =>
      if c = 'q' then (true, { app with exit := true })
      else if c = 'h' ∧ key.ctrl then (true, { app with current_screen := .help })
      else if c.isDigit then
        (true, { app with
                 number_modifier :=
                   add_number_modifier app.number_modifier
                     app.lists_component.lists.length
                     (if c = '0' then 0 else c.toNat - 48) })
      else if c = ' ' then
        if app.number_modifier = 0 then
          (true, { app with leader_awaiting := true, current_screen := .leaderHelp })
        else (true, app)
      else (false, app)
  | .esc =>
      if app.current_screen ∈ mainScreens then
        (true, { app with number_modifier := 0 })
      else (false, app)
  | _ => (false, app)

/-- Embedding of `EventHandler::matches_global_keys` (src/app/events.rs:38): Tab
cycling and `last_active_screen` bookkeeping on the primary screens,
the awaiting-second-`g` resolution, key-buffer bookkeeping, arming of
the `g` sequence on the item screen, then the global key table.
Returns whether the key was consumed, plus the updated state. -/
def matches_global_keys (app0 : AppM) (key : KeyEventM) : Bool × AppM :=
  let app :=
    if app0.current_screen ∈ mainScreens then
      let s1 := if key.code = KeyCodeM.tab then tabNext app0.current_screen
                else app0.current_screen
      let s2 := if key.code = KeyCodeM.backTab then backTabNext s1 else s1
      { app0 with current_screen := s2, last_active_screen := s2 }
    else app0
  if app.awaiting_second_g ∧ key.code = KeyCodeM.char 'g' then
    (false, { app with awaiting_second_g := false,
                       keys_buffer := app.keys_buffer ++ [(['g'], false)] })
  else
    let app := { app with awaiting_second_g := false }
    let fk := format_keycode_for_buffer key
    let app := { app with keys_buffer := add_key_to_buffer app.keys_buffer fk.1 (!fk.2) }
    if key.code = KeyCodeM.char 'g' ∧ app.current_screen = ScreenM.itemSelection then
      (false, { app with awaiting_second_g := true })
    else
      globalTail app key

/-- Modelled from the spec: `App::go_back` is not under `src/`; per §4.4
it returns to the single remembered last active top-level screen. -/
def go_back (app : AppM) : AppM :=
  { app with current_screen := app.last_active_screen }

/-- Embedding of `App::enter_add_list_screen` (src/app/state.rs:299): fresh default
input state, then the AddList screen. -/
def enter_add_list_screen (app : AppM) : AppM :=
  { app with input_state := InputStateM.new, current_screen := .addList }

/-- Embedding of `App::enter_modify_list_screen` (src/app/state.rs:305): input state
pre-filled with the list name, cursor 0, modifying. -/
def enter_modify_list_screen (app : AppM) (name : List Char) : AppM :=
  { app with
    input_state := { current_input := name, cursor_pos := 0, is_modifying := true },
    current_screen := .modifyList }

/-- Embedding of `App::enter_add_item_screen` (src/app/state.rs:315): guarded on a
list being selected. -/
def enter_add_item_screen (app : AppM) : AppM :=
  match app.lists_component.list_state.selected with
  | some _ => { app with input_state := InputStateM.new, current_screen := .addItem }
  | none => app

/-- Embedding of `App::enter_modify_item_screen` (src/app/state.rs:323): guarded on a
list and an item being selected; indexes `ui_list.items[j]` (panic when
the item index is out of bounds). -/
def enter_modify_item_screen (app : AppM) (l : UIListM) : Option AppM :=
  match app.lists_component.list_state.selected, l.item_state.selected with
  | some _, some j =>
      match l.items.get? j with
      | some it =>
          some { app with
                 input_state :=
                   { current_input := it.name, cursor_pos := 0, is_modifying := true },
                 current_screen := .modifyItem }
      | none => none
  | _, _ => some app

/-- Embedding of `App::exit_add_or_modify_list_without_saving` (src/app/state.rs:339). -/
def exit_add_or_modify_list_without_saving (app : AppM) : AppM :=
  { app with current_screen := .listSelection, input_state := app.input_state.clear }

/-- Embedding of `App::exit_add_item_without_saving` (src/app/state.rs:345). -/
def exit_add_item_without_saving (app : AppM) : AppM :=
  { app with current_screen := .itemSelection, input_state := app.input_state.clear }

/-- Embedding of `App::exit_change_db_without_saving` (src/app/state.rs:363). -/
def exit_change_db_without_saving (app : AppM) : AppM :=
  { app with current_screen := .dbSelection }

/-- Embedding of `App::enter_add_db_screen` (src/app/state.rs:368): only sets the
screen; the input state is NOT reinitialized. -/
def enter_add_db_screen (app : AppM) : AppM :=
  { app with current_screen := .addDB }

/-- Embedding of `App::exit_add_db_without_saving` (src/app/state.rs:373). -/
def exit_add_db_without_saving (app : AppM) : AppM :=
  { app with current_screen := .dbSelection, input_state := app.input_state.clear }

/-- Embedding of `App::enter_modify_db_screen` (src/app/state.rs:510): guarded on the
selected index matching a database. -/
def enter_modify_db_screen (app : AppM) : AppM :=
  match app.dbs.get? app.selected_db_index with
  | some db =>
      { app with
        input_state := { current_input := db, cursor_pos := 0, is_modifying := true },
        current_screen := .modifyDB }
  | none => app

/-- Embedding of `App::exit_modify_db_without_saving` (src/app/state.rs:522). -/
def exit_modify_db_without_saving (app : AppM) : AppM :=
  { app with current_screen := .dbSelection, input_state := app.input_state.clear }

/-- Embedding of `ListsComponent::create_list` (src/ui/components/lists.rs:55) with
the storage call recorded; on success the reload appends the new list
at the end of the ordering, leaving the selection untouched; on storage
failure the component is unchanged. -/
def create_list_call (ok : Bool) (c : ListsComponentM) (name : List Char) :
    ListsComponentM × List StorageCall :=
  if ok then
    ({ lists := c.lists ++ [{ name := name, items := [], item_state := { selected := none } }],
       list_state := c.list_state },
     [StorageCall.createList name])
  else (c, [StorageCall.createList name])

/-- Modelled from the spec: `ListsComponent::update_list` is not under
`src/`; per §4.2 `update_name` renames the currently selected entity via
storage, then reloads.  With no selection nothing happens. -/
def update_list_call (ok : Bool) (c : ListsComponentM) (name : List Char) :
    ListsComponentM × List StorageCall × Bool :=
  match c.list_state.selected with
  | none => (c, [], true)
  | some i =>
      if h : i < c.lists.length then
        if ok then
          ({ c with lists := c.lists.set i { c.lists.get ⟨i, h⟩ with name := name } },
           [StorageCall.renameList name], true)
        else (c, [StorageCall.renameList name], false)
      else (c, [], true)

/-- Embedding of `ListsComponent::delete_selected_list` (src/ui/components/lists.rs:63)
with the storage call recorded (`delete_selected_list_static` is the
same operation invoked without the method receiver); on failure the
delete call has run but the reload and clamp are skipped. -/
def delete_selected_list_call (ok : Bool) (c : ListsComponentM) :
    Option (ListsComponentM × List StorageCall) :=
  match c.list_state.selected with
  | none => some (c, [])
  | some i =>
      if h : i < c.lists.length then
        if ok then
          match ListsComponentM.delete_selected_list_mem c with
          | some c2 => some (c2, [StorageCall.deleteList (c.lists.get ⟨i, h⟩).name])
          | none => none
        else some (c, [StorageCall.deleteList (c.lists.get ⟨i, h⟩).name])
      else none

/-- Modelled from the spec: `ListsComponent::move_selected_list_up` is
not under `src/`; per §4.2 it moves the selected list up by one with
clamping at the boundary, persists, reloads, and the selection follows. -/
def move_selected_list_up_call (ok : Bool) (c : ListsComponentM) :
    ListsComponentM × List StorageCall :=
  match c.list_state.selected with
  | none => (c, [])
  | some i =>
      if h : i < c.lists.length then
        if ok then
          ({ lists := insertAt (c.lists.get ⟨i, h⟩) (i - min 1 i) (c.lists.eraseIdx i),
             list_state := { selected := some (i - min 1 i) } },
           [StorageCall.moveListUp])
        else (c, [StorageCall.moveListUp])
      else (c, [])

/-- Modelled from the spec: `ListsComponent::move_selected_list_down`,
symmetric to `move_selected_list_up_call`. -/
def move_selected_list_down_call (ok : Bool) (c : ListsComponentM) :
    ListsComponentM × List StorageCall :=
  match c.list_state.selected with
  | none => (c, [])
  | some i =>
      if h : i < c.lists.length then
        let real := min 1 (c.lists.length - 1 - i)
        if ok then
          ({ lists := insertAt (c.lists.get ⟨i, h⟩) (i + real) (c.lists.eraseIdx i),
             list_state := { selected := some (i + real) } },
           [StorageCall.moveListDown])
        else (c, [StorageCall.moveListDown])
      else (c, [])

/-- Embedding of `ItemsComponent::create_item` (src/ui/components/items.rs:107) with
the storage call recorded; the reload appends the new (not done) item,
keeping the item selection state. -/
def create_item_call (ok : Bool) (l : UIListM) (name : List Char) :
    UIListM × List StorageCall :=
  if ok then
    ({ l with items := l.items ++ [{ name := name, is_done := false }] },
     [StorageCall.createItem name])
  else (l, [StorageCall.createItem name])

/-- Embedding of `ItemsComponent::update_item` (src/ui/components/items.rs:121) with
the storage call recorded: renames the selected item (`items[j]`,
panic when out of bounds) and reloads; no-op without a selection. -/
def update_item_call (ok : Bool) (l : UIListM) (name : List Char) :
    Option (UIListM × List StorageCall × Bool) :=
  match l.item_state.selected with
  | none => some (l, [], true)
  | some j =>
      if h : j < l.items.length then
        if ok then
          some ({ l with items := l.items.set j { l.items.get ⟨j, h⟩ with name := name } },
                [StorageCall.renameItem name], true)
        else some (l, [StorageCall.renameItem name], false)
      else none

/-- Embedding of `ItemsComponent::delete_selected_item` (src/ui/components/items.rs:133)
with the storage call recorded. -/
def delete_selected_item_call (ok : Bool) (l : UIListM) :
    Option (UIListM × List StorageCall) :=
  match l.item_state.selected with
  | none => some (l, [])
  | some j =>
      if h : j < l.items.length then
        if ok then
          match ItemsComponentM.delete_selected_item_mem l with
          | some l2 => some (l2, [StorageCall.deleteItem (l.items.get ⟨j, h⟩).name])
          | none => none
        else some (l, [StorageCall.deleteItem (l.items.get ⟨j, h⟩).name])
      else none

/-- Embedding of `ItemsComponent::toggle_item_done` (src/ui/components/items.rs:99)
with the storage call recorded: flips `items[j].item.is_done` in place
on success (panic when the selected index is out of bounds). -/
def toggle_item_done_call (ok : Bool) (l : UIListM) :
    Option (UIListM × List StorageCall) :=
  match l.item_state.selected with
  | none => some (l, [])
  | some j =>
      if h : j < l.items.length then
        let it := l.items.get ⟨j, h⟩
        if ok then
          some ({ l with items := l.items.set j { it with is_done := !it.is_done } },
                [StorageCall.toggleItem it.name])
        else some (l, [StorageCall.toggleItem it.name])
      else none

/-- Embedding of `ItemsComponent::move_selected_item_up_by` (src/ui/components/items.rs:168)
with the storage call recorded (the persisted move uses the clamped
amount). -/
def move_item_up_call (ok : Bool) (l : UIListM) (amount : Nat) :
    Option (UIListM × List StorageCall) :=
  match l.item_state.selected with
  | none => some (l, [])
  | some j =>
      if j < l.items.length then
        let real := if amount > j then j else amount
        if ok then
          match ItemsComponentM.move_selected_item_up_by_mem l amount with
          | some l2 => some (l2, [StorageCall.moveItemUpBy real])
          | none => none
        else some (l, [StorageCall.moveItemUpBy real])
      else none

/-- Embedding of `ItemsComponent::move_selected_item_down_by` (src/ui/components/items.rs:207)
with the storage call recorded. -/
def move_item_down_call (ok : Bool) (l : UIListM) (amount : Nat) :
    Option (UIListM × List StorageCall) :=
  match l.item_state.selected with
  | none => some (l, [])
  | some j =>
      if j < l.items.length then
        let real := if amount > l.items.length - j - 1 then l.items.length - j - 1 else amount
        if ok then
          match ItemsComponentM.move_selected_item_down_by_mem l amount with
          | some l2 => some (l2, [StorageCall.moveItemDownBy real])
          | none => none
        else some (l, [StorageCall.moveItemDownBy real])
      else none

/-- Helper threading a fallible mutation of the selected list through
`get_selected_list_mut` (no-op when no list is selected, as in the
`if let Some(selected_list)` patterns of the handlers). -/
def withSelectedList (app : AppM)
    (f : UIListM → Option (UIListM × List StorageCall)) :
    Option (AppM × List StorageCall) :=
  match app.lists_component.get_selected_list with
  | none => some (app, [])
  | some l =>
      match f l with
      | none => none
      | some (l2, calls) =>
          some ({ app with lists_component := app.lists_component.set_selected_list l2 },
                calls)

/-- Whitespace trim of Rust's `str::trim` restricted to the common
whitespace characters; the handlers only test emptiness after trim. -/
def trimChars (s : List Char) : List Char :=
  (s.dropWhile Char.isWhitespace).reverse.dropWhile Char.isWhitespace |>.reverse

/-- Embedding of `EventHandler::handle_leader_help_screen_key` (src/app/events.rs:114). -/
def handle_leader_help_screen_key (app0 : AppM) (key : KeyEventM) : AppM :=
  let app := { app0 with leader_awaiting := false }
  match key.code with
  | .char c =>
      if c = 'q' then { app with exit := true }
      else if c = '1' then { app with current_screen := .listSelection }
      else if c = '2' then { app with current_screen := .itemSelection }
      else if c = '3' then { app with current_screen := .dbSelection }
      else { app with leader_awaiting := true }
  | .esc => { go_back app with keys_buffer := [] }
  | _ => { app with leader_awaiting := true }

/-- Embedding of `EventHandler::handle_help_screen_key` (src/app/events.rs:129). -/
def handle_help_screen_key (app0 : AppM) (key : KeyEventM) : AppM :=
  let g := matches_global_keys app0 key
  if g.1 then g.2
  else
    match key.code with
    | .esc => go_back g.2
    | .char c => if c = 'q' then go_back g.2 else g.2
    | _ => g.2

/-- Embedding of `EventHandler::handle_list_selection_screen_key` (src/app/events.rs:143). -/
def handle_list_selection_screen_key (ok : Bool) (app0 : AppM) (key : KeyEventM) :
    Option (AppM × List StorageCall) :=
  let g := matches_global_keys app0 key
  if g.1 then some (g.2, [])
  else
    let app := g.2
    if key.shift then
      match key.code with
      | .up =>
          let r := move_selected_list_up_call ok app.lists_component
          some ({ app with lists_component := r.1 }, r.2)
      | .down =>
          let r := move_selected_list_down_call ok app.lists_component
          some ({ app with lists_component := r.1 }, r.2)
      | .char c =>
          if c = 'K' then
            let r := move_selected_list_up_call ok app.lists_component
            some ({ app with lists_component := r.1 }, r.2)
          else if c = 'J' then
            let r := move_selected_list_down_call ok app.lists_component
            some ({ app with lists_component := r.1 }, r.2)
          else some (app, [])
      | _ => some (app, [])
    else
      match key.code with
      | .down => some ({ app with lists_component := app.lists_component.select_next }, [])
      | .up => some ({ app with lists_component := app.lists_component.select_previous }, [])
      | .right =>
          let app := { app with current_screen := .itemSelection }
          (withSelectedList app (fun l => some (ItemsComponentM.select_first_item l, [])))
      | .char c =>
          if c = 'j' then
            some ({ app with lists_component := app.lists_component.select_next }, [])
          else if c = 'k' then
            some ({ app with lists_component := app.lists_component.select_previous }, [])
          else if c = 'l' then
            let app := { app with current_screen := .itemSelection }
            (withSelectedList app (fun l => some (ItemsComponentM.select_first_item l, [])))
          else if c = 'a' then some (enter_add_list_screen app, [])
          else if c = 'm' then
            match app.lists_component.get_selected_list with
            | some l => some (enter_modify_list_screen app l.name, [])
            | none => some (app, [])
          else if c = 'd' then
            match app.lists_component.get_selected_list with
            | some l =>
                some ({ app with
                        pending_delete_list_name := some l.name,
                        current_screen := .deleteListConfirmation }, [])
            | none => some (app, [])
          else some (app, [])
      | _ => some (app, [])

/-- Embedding of `EventHandler::handle_delete_list_confirmation_key` (src/app/events.rs:200). -/
def handle_delete_list_confirmation_key (ok : Bool) (app : AppM) (key : KeyEventM) :
    Option (AppM × List StorageCall) :=
  match key.code with
  | .char c =>
      if c = 'y' ∨ c = 'Y' then
        match delete_selected_list_call ok app.lists_component with
        | none => none
        | some (c2, calls) =>
            some (go_back { app with lists_component := c2,
                                     pending_delete_list_name := none }, calls)
      else if c = 'n' ∨ c = 'N' then
        some (go_back { app with pending_delete_list_name := none }, [])
      else some (app, [])
  | .esc => some (go_back { app with pending_delete_list_name := none }, [])
  | _ => some (app, [])

/-- Shift+G on the item screen (src/app/events.rs:266): scroll down by
`items.len() - index` (usize subtraction, panics when the selected
index exceeds the item count). -/
def itemShiftG (app : AppM) : Option (AppM × List StorageCall) :=
  withSelectedList app (fun l =>
    match l.item_state.selected with
    | none => some (l, [])
    | some index =>
        if index ≤ l.items.length then
          some (ItemsComponentM.scroll_down_by l (l.items.length - index), [])
        else none)

/-- Embedding of `EventHandler::handle_item_selection_screen_key` (src/app/events.rs:223). -/
def handle_item_selection_screen_key (ok : Bool) (app0 : AppM) (key : KeyEventM) :
    Option (AppM × List StorageCall) :=
  let g := matches_global_keys app0 key
  if g.1 then some (g.2, [])
  else
    let app := g.2
    if key.shift then
      let amount := if app.number_modifier = 0 then 1 else app.number_modifier
      match key.code with
      | .up =>
          match withSelectedList app (fun l => move_item_up_call ok l amount) with
          | none => none
          | some (a, calls) => some ({ a with number_modifier := 0 }, calls)
      | .down =>
          match withSelectedList app (fun l => move_item_down_call ok l amount) with
          | none => none
          | some (a, calls) => some ({ a with number_modifier := 0 }, calls)
      | .char c =>
          if c = 'K' then
            match withSelectedList app (fun l => move_item_up_call ok l amount) with
            | none => none
            | some (a, calls) => some ({ a with number_modifier := 0 }, calls)
          else if c = 'J' then
            match withSelectedList app (fun l => move_item_down_call ok l amount) with
            | none => none
            | some (a, calls) => some ({ a with number_modifier := 0 }, calls)
          else if c = 'G' then itemShiftG app
          else some (app, [])
      | _ => some (app, [])
    else
      match key.code with
      | .down =>
          if app.number_modifier = 0 then
            withSelectedList app (fun l => some (ItemsComponentM.select_next_item l, []))
          else
            match withSelectedList app
                (fun l => some (ItemsComponentM.scroll_down_by l app.number_modifier, [])) with
            | none => none
            | some (a, calls) =>
                some ((if app.lists_component.get_selected_list = none then a
                       else { a with number_modifier := 0 }), calls)
      | .up =>
          if app.number_modifier = 0 then
            withSelectedList app (fun l => some (ItemsComponentM.select_previous_item l, []))
          else
            match withSelectedList app
                (fun l => some (ItemsComponentM.scroll_up_by l app.number_modifier, [])) with
            | none => none
            | some (a, calls) =>
                some ((if app.lists_component.get_selected_list = none then a
                       else { a with number_modifier := 0 }), calls)
      | .left =>
          let app := { app with current_screen := .listSelection }
          withSelectedList app (fun l => some (ItemsComponentM.remove_item_selection l, []))
      | .enter => withSelectedList app (toggle_item_done_call ok)
      | .esc => some ({ app with current_screen := .itemSelection }, [])
      | .char c =>
          if c = 'g' then
            if app.awaiting_second_g then some (app, [])
            else withSelectedList app (fun l => some (ItemsComponentM.select_first l, []))
          else if c = 'j' then
            if app.number_modifier = 0 then
              withSelectedList app (fun l => some (ItemsComponentM.select_next_item l, []))
            else
              match withSelectedList app
                  (fun l => some (ItemsComponentM.scroll_down_by l app.number_modifier, [])) with
              | none => none
              | some (a, calls) =>
                  some ((if app.lists_component.get_selected_list = none then a
                         else { a with number_modifier := 0 }), calls)
          else if c = 'k' then
            if app.number_modifier = 0 then
              withSelectedList app (fun l => some (ItemsComponentM.select_previous_item l, []))
            else
              match withSelectedList app
                  (fun l => some (ItemsComponentM.scroll_up_by l app.number_modifier, [])) with
              | none => none
              | some (a, calls) =>
                  some ((if app.lists_component.get_selected_list = none then a
                         else { a with number_modifier := 0 }), calls)
          else if c = 'h' then
            let app := { app with current_screen := .listSelection }
            withSelectedList app (fun l => some (ItemsComponentM.remove_item_selection l, []))
          else if c = 'a' then some (enter_add_item_screen app, [])
          else if c = 'm' then
            match app.lists_component.get_selected_list with
            | some l =>
                match enter_modify_item_screen app l with
                | some a2 => some (a2, [])
                | none => none
            | none => some (app, [])
          else if c = 'd' then
            withSelectedList app (delete_selected_item_call ok)
          else some (app, [])
      | _ => some (app, [])

/-- Embedding of `EventHandler::handle_add_or_modify_list_screen_key` (src/app/events.rs:347). -/
def handle_add_or_modify_list_screen_key (ok : Bool) (app : AppM) (key : KeyEventM) :
    Option (AppM × List StorageCall) :=
  match key.code with
  | .esc => some (exit_add_or_modify_list_without_saving app, [])
  | .backspace =>
      match app.input_state.remove_char_before_cursor with
      | some s => some ({ app with input_state := s }, [])
      | none => none
  | .del => some ({ app with input_state := app.input_state.delete_char_after_cursor }, [])
  | .char v =>
      match app.input_state.add_char v with
      | some s => some ({ app with input_state := s }, [])
      | none => none
  | .left => some ({ app with input_state := app.input_state.move_cursor_left }, [])
  | .right => some ({ app with input_state := app.input_state.move_cursor_right }, [])
  | .enter =>
      let name := app.input_state.current_input
      if trimChars name ≠ [] then
        if app.input_state.is_modifying then
          let r := update_list_call ok app.lists_component name
          if r.2.2 then
            some ({ go_back { app with lists_component := r.1 } with
                    input_state := app.input_state.clear }, r.2.1)
          else some ({ app with lists_component := r.1 }, r.2.1)
        else
          let r := create_list_call ok app.lists_component name
          if ok then
            some ({ go_back { app with lists_component := r.1 } with
                    input_state := app.input_state.clear }, r.2)
          else some ({ app with lists_component := r.1 }, r.2)
      else some (app, [])
  | _ => some (app, [])

/-- Embedding of `EventHandler::handle_add_or_modify_item_screen_key` (src/app/events.rs:388). -/
def handle_add_or_modify_item_screen_key (ok : Bool) (app : AppM) (key : KeyEventM) :
    Option (AppM × List StorageCall) :=
  match key.code with
  | .esc => some (exit_add_item_without_saving app, [])
  | .backspace =>
      match app.input_state.remove_char_before_cursor with
      | some s => some ({ app with input_state := s }, [])
      | none => none
  | .del => some ({ app with input_state := app.input_state.delete_char_after_cursor }, [])
  | .char v =>
      match app.input_state.add_char v with
      | some s => some ({ app with input_state := s }, [])
      | none => none
  | .left => some ({ app with input_state := app.input_state.move_cursor_left }, [])
  | .right => some ({ app with input_state := app.input_state.move_cursor_right }, [])
  | .enter =>
      let name := app.input_state.current_input
      if trimChars name ≠ [] then
        match app.lists_component.get_selected_list with
        | none => some (app, [])
        | some l =>
            if app.input_state.is_modifying then
              match update_item_call ok l name with
              | none => none
              | some (l2, calls, success) =>
                  let app2 := { app with
                                lists_component := app.lists_component.set_selected_list l2 }
                  if success then
                    some ({ app2 with current_screen := .itemSelection,
                                      input_state := app.input_state.clear }, calls)
                  else some (app2, calls)
            else
              let r := create_item_call ok l name
              let app2 := { app with
                            lists_component := app.lists_component.set_selected_list r.1 }
              if ok then
                some ({ app2 with current_screen := .itemSelection,
                                  input_state := app.input_state.clear }, r.2)
              else some (app2, r.2)
      else some (app, [])
  | _ => some (app, [])

/-- Embedding of `App::switch_to_selected_db` (src/app/state.rs:399): on success the
current database changes, the lists component is replaced by the lists
loaded from the new database (`loaded`, with the first list selected
when non-empty), and the screen returns to list selection. -/
def switch_to_selected_db_call (ok : Bool) (loaded : List UIListM) (app : AppM) :
    AppM × List StorageCall :=
  match app.dbs.get? app.selected_db_index with
  | none => (app, [])
  | some db =>
      if ok then
        ({ app with
           current_db_name := db,
           lists_component :=
             { lists := loaded,
               list_state := { selected := if loaded.isEmpty then none else some 0 } },
           current_screen := .listSelection },
         [StorageCall.initDb db])
      else (app, [StorageCall.initDb db])

/-- Embedding of `App::set_selected_db_as_default` (src/app/state.rs:431): sets the
config default before writing the config, so the in-memory default is
updated even when the write fails. -/
def set_selected_db_as_default_call (_ok : Bool) (app : AppM) : AppM × List StorageCall :=
  match app.dbs.get? app.selected_db_index with
  | none => (app, [])
  | some db =>
      ({ app with config_default := db },
       [StorageCall.writeConfig])

/-- Embedding of `App::delete_selected_db` (src/app/state.rs:450): removes the entry
at the selected index from the registry (guarded, no panic), fixes up
the default, and rewrites the config. -/
def delete_selected_db_call (app : AppM) : AppM × List StorageCall :=
  if h : app.selected_db_index < app.dbs.length then
    let removed := app.dbs.get ⟨app.selected_db_index, h⟩
    let dbs2 := app.dbs.eraseIdx app.selected_db_index
    ({ app with
       dbs := dbs2,
       config_default :=
         if app.config_default = removed then
           match dbs2 with
           | [] => []
           | d :: _ => d
         else app.config_default },
     [StorageCall.deleteDb removed])
  else (app, [])

/-- Embedding of `App::modify_selected_db` (src/app/state.rs:477) with only a new
name, as invoked from the ModifyDB screen: renames the entry (and the
default when it pointed at it) before the config write. -/
def modify_selected_db_call (app : AppM) (name : List Char) : AppM × List StorageCall :=
  match app.dbs.get? app.selected_db_index with
  | none => (app, [])
  | some old =>
      ({ app with
         config_default := if app.config_default = old then name else app.config_default,
         dbs := app.dbs.set app.selected_db_index name },
       [StorageCall.writeConfig])

/-- Embedding of `App::create_new_database` (src/app/state.rs:206) as invoked from
the AddDB screen (`set_as_default = false`): on success a new entry is
appended and selected; on failure the state is unchanged. -/
def create_new_database_call (ok : Bool) (app : AppM) (name : List Char) :
    AppM × List StorageCall × Bool :=
  if ok then
    ({ app with dbs := app.dbs ++ [name], selected_db_index := app.dbs.length },
     [StorageCall.initDb name, StorageCall.writeConfig], true)
  else (app, [StorageCall.initDb name], false)

/-- Embedding of `EventHandler::handle_change_db_screen_key` (src/app/events.rs:425);
the `d` branch looks the selected database up with
`find(...).map(...).unwrap()` and panics (`none`) when the index
matches no database. -/
def handle_change_db_screen_key (ok : Bool) (loaded : List UIListM)
    (app0 : AppM) (key : KeyEventM) : Option (AppM × List StorageCall) :=
  let g := matches_global_keys app0 key
  if g.1 then some (g.2, [])
  else
    let app := g.2
    match key.code with
    | .esc => some (exit_change_db_without_saving app, [])
    | .up =>
        some ({ app with
                selected_db_index := selectPreviousDbIdx app.dbs app.selected_db_index }, [])
    | .down =>
        some ({ app with
                selected_db_index := selectNextDbIdx app.dbs app.selected_db_index }, [])
    | .enter =>
        let r := switch_to_selected_db_call ok loaded app
        some (go_back r.1, r.2)
    | .char c =>
        if c = 'k' then
          some ({ app with
                  selected_db_index := selectPreviousDbIdx app.dbs app.selected_db_index }, [])
        else if c = 'j' then
          some ({ app with
                  selected_db_index := selectNextDbIdx app.dbs app.selected_db_index }, [])
        else if c = 'a' then some (enter_add_db_screen app, [])
        else if c = 's' then
          let r1 := switch_to_selected_db_call ok loaded app
          let r2 := set_selected_db_as_default_call ok r1.1
          some (r2.1, r1.2 ++ r2.2)
        else if c = 'm' then some (enter_modify_db_screen app, [])
        else if c = 'd' then
          match app.dbs.get? app.selected_db_index with
          | some db =>
              some ({ app with
                      pending_delete_db_name := some db,
                      current_screen := .deleteDatabaseConfirmation }, [])
          | none => none
        else some (app, [])
    | _ => some (app, [])

/-- Embedding of `EventHandler::handle_delete_database_confirmation_key`
(src/app/events.rs:468). -/
def handle_delete_database_confirmation_key (app : AppM) (key : KeyEventM) :
    Option (AppM × List StorageCall) :=
  match key.code with
  | .char c =>
      if c = 'y' ∨ c = 'Y' then
        let r := delete_selected_db_call app
        let a := { r.1 with
                   pending_delete_db_name := none,
                   current_screen := ScreenM.dbSelection }
        some ({ a with
                selected_db_index :=
                  (a.dbs.findIdx? (fun d => d = a.current_db_name)).getD 0 }, r.2)
      else if c = 'n' ∨ c = 'N' then
        some ({ app with
                pending_delete_db_name := none,
                current_screen := ScreenM.dbSelection }, [])
      else some (app, [])
  | .esc =>
      some ({ app with
              pending_delete_db_name := none,
              current_screen := ScreenM.dbSelection }, [])
  | _ => some (app, [])

/-- Embedding of `EventHandler::handle_add_db_screen_key` (src/app/events.rs:495). -/
def handle_add_db_screen_key (ok : Bool) (app : AppM) (key : KeyEventM) :
    Option (AppM × List StorageCall) :=
  match key.code with
  | .esc => some (exit_add_db_without_saving app, [])
  | .backspace =>
      match app.input_state.remove_char_before_cursor with
      | some s => some ({ app with input_state := s }, [])
      | none => none
  | .del => some ({ app with input_state := app.input_state.delete_char_after_cursor }, [])
  | .char v =>
      match app.input_state.add_char v with
      | some s => some ({ app with input_state := s }, [])
      | none => none
  | .left => some ({ app with input_state := app.input_state.move_cursor_left }, [])
  | .right => some ({ app with input_state := app.input_state.move_cursor_right }, [])
  | .enter =>
      let name := app.input_state.current_input
      if trimChars name ≠ [] then
        let r := create_new_database_call ok app name
        if r.2.2 then
          some ({ r.1 with current_screen := .dbSelection,
                           input_state := app.input_state.clear }, r.2.1)
        else some (r.1, r.2.1)
      else some (app, [])
  | _ => some (app, [])

/-- Embedding of `EventHandler::handle_modify_db_screen_key` (src/app/events.rs:518):
Enter modifies (when non-empty after trim) and always exits clearing
the input; Esc exits clearing the input. -/
def handle_modify_db_screen_key (app : AppM) (key : KeyEventM) :
    Option (AppM × List StorageCall) :=
  match key.code with
  | .enter =>
      let name := app.input_state.current_input
      if trimChars name ≠ [] then
        let r := modify_selected_db_call app name
        some (exit_modify_db_without_saving r.1, r.2)
      else some (exit_modify_db_without_saving app, [])
  | .esc => some (exit_modify_db_without_saving app, [])
  | .backspace =>
      match app.input_state.remove_char_before_cursor with
      | some s => some ({ app with input_state := s }, [])
      | none => none
  | .del => some ({ app with input_state := app.input_state.delete_char_after_cursor }, [])
  | .char v =>
      match app.input_state.add_char v with
      | some s => some ({ app with input_state := s }, [])
      | none => none
  | .left => some ({ app with input_state := app.input_state.move_cursor_left }, [])
  | .right => some ({ app with input_state := app.input_state.move_cursor_right }, [])
  | _ => some (app, [])

/-- Embedding of `App::handle_key_event` (src/app/state.rs:263): dispatch on the
current screen.  `ok` models whether the storage calls of this event
succeed; `loaded` models the lists read from a newly opened database
on a DB switch.  `none` models a panic during handling. -/
def handleKeyEvent (ok : Bool) (loaded : List UIListM) (app : AppM) (key : KeyEventM) :
    Option (AppM × List StorageCall) :=
  match app.current_screen with
  | .addList => handle_add_or_modify_list_screen_key ok app key
  | .modifyList => handle_add_or_modify_list_screen_key ok app key
  | .addItem => handle_add_or_modify_item_screen_key ok app key
  | .modifyItem => handle_add_or_modify_item_screen_key ok app key
  | .dbSelection => handle_change_db_screen_key ok loaded app key
  | .addDB => handle_add_db_screen_key ok app key
  | .modifyDB => handle_modify_db_screen_key app key
  | .listSelection => handle_list_selection_screen_key ok app key
  | .itemSelection => handle_item_selection_screen_key ok app key
  | .help => some (handle_help_screen_key app key, [])
  | .leaderHelp => some (handle_leader_help_screen_key app key, [])
  | .deleteListConfirmation => handle_delete_list_confirmation_key ok app key
  | .deleteDatabaseConfirmation => handle_delete_database_confirmation_key app key

/-- A small concrete application state used by the concrete evaluations
below: item-selection screen, one list "L" (selected) containing one
item "X" (selected), one database "a". -/
def baseApp : AppM :=
  { current_screen := .itemSelection
    last_active_screen := .listSelection
    exit := false
    awaiting_second_g := false
    leader_awaiting := false
    number_modifier := 0
    keys_buffer := []
    lists_component :=
      { lists := [{ name := ['L'], items := [{ name := ['X'], is_done := false }],
                    item_state := { selected := some 0 } }],
        list_state := { selected := some 0 } }
    input_state := InputStateM.new
    dbs := [['a']]
    config_default := ['a']
    current_db_name := ['a']
    selected_db_index := 0
    pending_delete_list_name := none
    pending_delete_db_name := none }

/-- C2: the claim that a delete of an entity (list or item) is never
executed directly by the key press that requests it FAILS on the code
for items: on the item-selection screen with a list and an item
selected, the `d` key itself invokes the delegated storage delete of
the item, stays on the item-selection screen, and sets no pending
delete name — there is no confirmation step for items. -/
theorem c2_item_delete_runs_immediately :
    ((handleKeyEvent true [] baseApp { code := .char 'd', shift := false, ctrl := false }).map
        (fun r => (r.1.current_screen, r.1.pending_delete_list_name,
                   r.1.pending_delete_db_name, r.2)))
      = some (ScreenM.itemSelection, none, none, [StorageCall.deleteItem ['X']]) := by
  decide

/-- C3: the claim that key handling never panics, and in particular
that `d` on the database-selection screen is a no-op when the registry
is empty, FAILS on the code: the `d` branch calls `.unwrap()` on the
looked-up name.  The panicking state is reachable: starting from the
database-selection screen with a single database "a", pressing `d`
opens the confirmation, `y` deletes the last database (leaving an
empty registry, back on the database-selection screen), and a second
`d` then panics (`none`). -/
theorem c3_db_delete_key_panics_on_empty_registry :
    (handleKeyEvent true []
        { baseApp with current_screen := .dbSelection, last_active_screen := .dbSelection }
        { code := .char 'd', shift := false, ctrl := false }).isSome = true ∧
    ((handleKeyEvent true []
        { baseApp with current_screen := .dbSelection, last_active_screen := .dbSelection }
        { code := .char 'd', shift := false, ctrl := false }).bind
      (fun r => handleKeyEvent true [] r.1
        { code := .char 'y', shift := false, ctrl := false })).map
      (fun r => (r.1.dbs, r.1.current_screen)) = some ([], ScreenM.dbSelection) ∧
    (((handleKeyEvent true []
        { baseApp with current_screen := .dbSelection, last_active_screen := .dbSelection }
        { code := .char 'd', shift := false, ctrl := false }).bind
      (fun r => handleKeyEvent true [] r.1
        { code := .char 'y', shift := false, ctrl := false })).bind
      (fun r => handleKeyEvent true [] r.1
        { code := .char 'd', shift := false, ctrl := false })) = none := by
  refine ⟨by decide, by decide, by decide⟩

/-- C7: the claim that every counted motion or reorder key resets the
NumberModifier FAILS on the code for the list-selection screen: with a
pending count of 5, Shift+Down moves the selected list down by one
(the count is not consumed as a repeat amount) and leaves the modifier
at 5. -/
theorem c7_list_reorder_keeps_modifier :
    ((handleKeyEvent true []
        { baseApp with
          current_screen := .listSelection, last_active_screen := .listSelection,
          number_modifier := 5 }
        { code := .down, shift := true, ctrl := false }).map
      (fun r => (r.1.number_modifier, r.2)))
      = some (5, [StorageCall.moveListDown]) ∧ (5 : Nat) ≠ 0 := by
  refine ⟨by decide, by decide⟩

/-- C9: the claim that entering ANY add/modify screen reinitializes
InputState FAILS on the code for the Add-Database screen:
`App::enter_add_db_screen` only switches the screen and leaves whatever
input state was present untouched (here a stale buffer "x" with cursor
1 and modify semantics). -/
theorem c9_enter_add_db_keeps_stale_input :
    AppM.current_screen (enter_add_db_screen { baseApp with
        input_state := { current_input := ['x'], cursor_pos := 1, is_modifying := true } })
      = ScreenM.addDB ∧
    AppM.input_state (enter_add_db_screen { baseApp with
        input_state := { current_input := ['x'], cursor_pos := 1, is_modifying := true } })
      = { current_input := ['x'], cursor_pos := 1, is_modifying := true } ∧
    (['x'] : List Char) ≠ [] := by
  refine ⟨rfl, rfl, by decide⟩

/-- C9 (amended): every add/modify entry operation EXCEPT
`enter_add_db_screen` (re)initializes InputState — empty text and
cursor 0 for add, the target's name with cursor 0 and
`is_modifying = true` for modify, with the add/modify-item entries
guarded on a selection; `enter_add_db_screen` leaves InputState
untouched (it relies on every exit path having cleared it).  All exit
operations, including cancellation and a successful submission, leave
the buffer cleared (empty text, cursor 0). -/
theorem c9_amended_input_state_lifecycle :
    (∀ app : AppM, (enter_add_list_screen app).input_state = InputStateM.new ∧
        (enter_add_list_screen app).current_screen = ScreenM.addList) ∧
    (∀ (app : AppM) (name : List Char),
        (enter_modify_list_screen app name).input_state
          = { current_input := name, cursor_pos := 0, is_modifying := true }) ∧
    (∀ (app : AppM) (i : Nat), app.lists_component.list_state.selected = some i →
        (enter_add_item_screen app).input_state = InputStateM.new ∧
        (enter_add_item_screen app).current_screen = ScreenM.addItem) ∧
    (∀ app : AppM, app.lists_component.list_state.selected = none →
        enter_add_item_screen app = app) ∧
    (∀ (app : AppM) (l : UIListM) (i j : Nat) (it : ItemM),
        app.lists_component.list_state.selected = some i →
        l.item_state.selected = some j → l.items.get? j = some it →
        enter_modify_item_screen app l
          = some { app with
                   input_state :=
                     { current_input := it.name, cursor_pos := 0, is_modifying := true },
                   current_screen := ScreenM.modifyItem }) ∧
    (∀ (app : AppM) (db : List Char), app.dbs.get? app.selected_db_index = some db →
        (enter_modify_db_screen app).input_state
          = { current_input := db, cursor_pos := 0, is_modifying := true }) ∧
    (∀ app : AppM, (enter_add_db_screen app).input_state = app.input_state) ∧
    (∀ app : AppM,
        (exit_add_or_modify_list_without_saving app).input_state.current_input = [] ∧
        (exit_add_or_modify_list_without_saving app).input_state.cursor_pos = 0) ∧
    (∀ app : AppM,
        (exit_add_item_without_saving app).input_state.current_input = [] ∧
        (exit_add_item_without_saving app).input_state.cursor_pos = 0) ∧
    (∀ app : AppM,
        (exit_add_db_without_saving app).input_state.current_input = [] ∧
        (exit_add_db_without_saving app).input_state.cursor_pos = 0) ∧
    (∀ app : AppM,
        (exit_modify_db_without_saving app).input_state.current_input = [] ∧
        (exit_modify_db_without_saving app).input_state.cursor_pos = 0) ∧
    (∀ (app : AppM) (res : AppM × List StorageCall),
        app.input_state.is_modifying = false →
        trimChars app.input_state.current_input ≠ [] →
        handle_add_or_modify_list_screen_key true app
          { code := .enter, shift := false, ctrl := false } = some res →
        res.1.input_state.current_input = [] ∧ res.1.input_state.cursor_pos = 0) := by
  refine ⟨?_, ?_, ?_, ?_, ?_, ?_, ?_, ?_, ?_, ?_, ?_, ?_⟩
  · intro app; exact ⟨rfl, rfl⟩
  · intro app name; rfl
  · intro app i h
    unfold enter_add_item_screen
    rw [h]
    exact ⟨rfl, rfl⟩
  · intro app h
    unfold enter_add_item_screen
    rw [h]
  · intro app l i j it hi hj hit
    rw [List.get?_eq_getElem?] at hit
    simp [enter_modify_item_screen, hi, hj, hit]
  · intro app db h
    unfold enter_modify_db_screen
    rw [h]
  · intro app; rfl
  · intro app; exact ⟨rfl, rfl⟩
  · intro app; exact ⟨rfl, rfl⟩
  · intro app; exact ⟨rfl, rfl⟩
  · intro app; exact ⟨rfl, rfl⟩
  · intro app res hmod htrim h
    unfold handle_add_or_modify_list_screen_key at h
    rw [if_pos htrim, hmod] at h
    simp only [Bool.false_eq_true, if_false, if_true, Option.some.injEq] at h
    rw [← h]
    exact ⟨rfl, rfl⟩

/-- Witness for `c9_amended_input_state_lifecycle`: entering the
modify-database screen from `baseApp` (whose selected database is "a")
pre-fills the input with "a", cursor 0, modifying. -/
theorem c9_amended_input_state_lifecycle_witness :
    (enter_modify_db_screen baseApp).input_state
      = { current_input := ['a'], cursor_pos := 0, is_modifying := true } :=
  c9_amended_input_state_lifecycle.2.2.2.2.2.1 baseApp ['a'] (by decide)

/-- C10: entering any modify screen (list, item, database) pre-fills
the input buffer with the target's current name and always places the
cursor at character position 0 — the start of the text — for every
name. -/
theorem c10_modify_screens_cursor_at_start :
    (∀ (app : AppM) (name : List Char),
        (enter_modify_list_screen app name).input_state.cursor_pos = 0 ∧
        (enter_modify_list_screen app name).input_state.current_input = name) ∧
    (∀ (app : AppM) (l : UIListM) (i j : Nat) (it : ItemM),
        app.lists_component.list_state.selected = some i →
        l.item_state.selected = some j → l.items.get? j = some it →
        ((enter_modify_item_screen app l).map
            (fun a => (a.input_state.cursor_pos, a.input_state.current_input)))
          = some (0, it.name)) ∧
    (∀ (app : AppM) (db : List Char), app.dbs.get? app.selected_db_index = some db →
        (enter_modify_db_screen app).input_state.cursor_pos = 0 ∧
        (enter_modify_db_screen app).input_state.current_input = db) := by
  refine ⟨?_, ?_, ?_⟩
  · intro app name; exact ⟨rfl, rfl⟩
  · intro app l i j it hi hj hit
    rw [List.get?_eq_getElem?] at hit
    simp [enter_modify_item_screen, hi, hj, hit]
  · intro app db h
    unfold enter_modify_db_screen
    rw [h]
    exact ⟨rfl, rfl⟩

/-- Witness for `c10_modify_screens_cursor_at_start`: entering the
modify-database screen from `baseApp` puts the cursor at 0 with the
database name "a" in the buffer. -/
theorem c10_modify_screens_cursor_at_start_witness :
    (enter_modify_db_screen baseApp).input_state.cursor_pos = 0 ∧
    (enter_modify_db_screen baseApp).input_state.current_input = ['a'] :=
  c10_modify_screens_cursor_at_start.2.2 baseApp ['a'] (by decide)

theorem get_selected_after_set (c : ListsComponentM) (l l2 : UIListM)
    (h : c.get_selected_list = some l) :
    (c.set_selected_list l2).get_selected_list = some l2 := by
  unfold ListsComponentM.get_selected_list at h
  unfold ListsComponentM.get_selected_list ListsComponentM.set_selected_list
  cases hs : c.list_state.selected with
  | none => simp [hs] at h
  | some i =>
      simp only [hs] at h
      rw [List.get?_eq_getElem?] at h
      have hlt : i < c.lists.length := (List.getElem?_eq_some.mp h).1
      simp [hs, List.get?_eq_getElem?, List.getElem?_set_eq_of_lt l2 hlt]

theorem global_motion_key (app : AppM) (key : KeyEventM)
    (h : key.code = KeyCodeM.up ∨ key.code = KeyCodeM.down ∨
         key.code = KeyCodeM.char 'K' ∨ key.code = KeyCodeM.char 'J' ∨
         key.code = KeyCodeM.char 'j' ∨ key.code = KeyCodeM.char 'k') :
    (matches_global_keys app key).1 = false ∧
    (matches_global_keys app key).2.number_modifier = app.number_modifier ∧
    (matches_global_keys app key).2.lists_component = app.lists_component ∧
    (matches_global_keys app key).2.current_screen = app.current_screen ∧
    (matches_global_keys app key).2.input_state = app.input_state := by
  rcases h with h | h | h | h | h | h <;>
    · unfold matches_global_keys globalTail format_keycode_for_buffer
      rw [h]
      by_cases hm : app.current_screen ∈ mainScreens <;> simp [hm, h]

/-- C7 (amended): on the item-selection screen, the shift reorder keys
(Shift+Up/Down, `K`, `J`) always consume the pending count and reset
NumberModifier to 0 regardless of storage success; the counted plain
motions (`j`/`k`, arrows) consume and reset the count only when a list
is selected.  On the list-selection screen, by contrast, the shift
reorder keys neither consume nor reset the count: the move is by one
and the modifier survives the command. -/
theorem c7_amended_modifier_reset :
    ∀ (ok : Bool) (loaded : List UIListM) (app : AppM) (key : KeyEventM)
      (res : AppM × List StorageCall),
    handleKeyEvent ok loaded app key = some res →
    ((app.current_screen = ScreenM.itemSelection ∧ key.shift = true ∧
        (key.code = KeyCodeM.up ∨ key.code = KeyCodeM.down ∨
         key.code = KeyCodeM.char 'K' ∨ key.code = KeyCodeM.char 'J')) →
      res.1.number_modifier = 0) ∧
    ((app.current_screen = ScreenM.itemSelection ∧ key.shift = false ∧
        app.number_modifier ≠ 0 ∧ app.lists_component.get_selected_list ≠ none ∧
        (key.code = KeyCodeM.up ∨ key.code = KeyCodeM.down ∨
         key.code = KeyCodeM.char 'j' ∨ key.code = KeyCodeM.char 'k')) →
      res.1.number_modifier = 0) ∧
    ((app.current_screen = ScreenM.listSelection ∧ key.shift = true ∧
        (key.code = KeyCodeM.up ∨ key.code = KeyCodeM.down ∨
         key.code = KeyCodeM.char 'K' ∨ key.code = KeyCodeM.char 'J')) →
      res.1.number_modifier = app.number_modifier) := by
  intro ok loaded app key res h
  refine ⟨?_, ?_, ?_⟩
  · rintro ⟨hscr, hshift, hcode⟩
    have hg := global_motion_key app key (by tauto)
    simp only [handleKeyEvent, hscr] at h
    unfold handle_item_selection_screen_key at h
    rcases hcode with hc | hc | hc | hc <;>
      · simp [hg.1, hshift, hc] at h
        split at h <;> first
          | exact Option.noConfusion h
          | (rw [← Option.some.inj h])
  · rintro ⟨hscr, hshift, hmod, hsel, hcode⟩
    have hg := global_motion_key app key (by tauto)
    simp only [handleKeyEvent, hscr] at h
    unfold handle_item_selection_screen_key at h
    rcases hcode with hc | hc | hc | hc <;>
      · simp [hg.1, hshift, hc, hg.2.1, hg.2.2.1, hmod, hsel] at h
        split at h <;> first
          | exact Option.noConfusion h
          | (rw [← Option.some.inj h])
  · rintro ⟨hscr, hshift, hcode⟩
    have hg := global_motion_key app key (by tauto)
    simp only [handleKeyEvent, hscr] at h
    unfold handle_list_selection_screen_key at h
    rcases hcode with hc | hc | hc | hc <;>
      · simp [hg.1, hshift, hc] at h
        rw [← h]
        exact hg.2.1

/-- Concrete input for the witness of `c7_amended_modifier_reset`. -/
def c7wApp : AppM := { baseApp with number_modifier := 7 }

/-- Concrete result of Shift+Down on `c7wApp`. -/
def c7wRes : AppM × List StorageCall :=
  ({ current_screen := .itemSelection
     last_active_screen := .itemSelection
     exit := false
     awaiting_second_g := false
     leader_awaiting := false
     number_modifier := 0
     keys_buffer := [(['↓'], false)]
     lists_component :=
       { lists := [{ name := ['L'], items := [{ name := ['X'], is_done := false }],
                     item_state := { selected := some 0 } }],
         list_state := { selected := some 0 } }
     input_state := InputStateM.new
     dbs := [['a']]
     config_default := ['a']
     current_db_name := ['a']
     selected_db_index := 0
     pending_delete_list_name := none
     pending_delete_db_name := none },
   [StorageCall.moveItemDownBy 0])

/-- Witness for `c7_amended_modifier_reset`: Shift+Down on the item
screen with a pending count of 7 leaves the modifier at 0. -/
theorem c7_amended_modifier_reset_witness : c7wRes.1.number_modifier = 0 :=
  (c7_amended_modifier_reset true [] c7wApp
      { code := .down, shift := true, ctrl := false } c7wRes (by decide)).1
    ⟨by decide, by decide, by decide⟩

theorem global_first_g (app : AppM)
    (hscr : app.current_screen = ScreenM.itemSelection)
    (haw : app.awaiting_second_g = false) :
    matches_global_keys app { code := .char 'g', shift := false, ctrl := false }
      = (false, { app with
                  last_active_screen := ScreenM.itemSelection,
                  awaiting_second_g := true,
                  keys_buffer := add_key_to_buffer app.keys_buffer ['g'] false }) := by
  unfold matches_global_keys format_keycode_for_buffer
  simp [hscr, haw, mainScreens]

theorem global_second_g (app : AppM)
    (hscr : app.current_screen = ScreenM.itemSelection)
    (haw : app.awaiting_second_g = true) :
    matches_global_keys app { code := .char 'g', shift := false, ctrl := false }
      = (false, { app with
                  last_active_screen := ScreenM.itemSelection,
                  awaiting_second_g := false,
                  keys_buffer := app.keys_buffer ++ [(['g'], false)] }) := by
  unfold matches_global_keys
  simp [hscr, haw, mainScreens]

theorem global_awaiting_irrelevant (app : AppM) (key : KeyEventM)
    (hg : key.code ≠ KeyCodeM.char 'g') :
    matches_global_keys { app with awaiting_second_g := true } key
      = matches_global_keys { app with awaiting_second_g := false } key := by
  unfold matches_global_keys
  by_cases hm : app.current_screen ∈ mainScreens <;> simp [hm, hg]

theorem item_handler_awaiting_irrelevant (ok : Bool) (app : AppM) (key : KeyEventM)
    (hkg : key.code ≠ KeyCodeM.char 'g') :
    handle_item_selection_screen_key ok { app with awaiting_second_g := true } key
      = handle_item_selection_screen_key ok { app with awaiting_second_g := false } key := by
  unfold handle_item_selection_screen_key
  rw [global_awaiting_irrelevant app key hkg]

/-- C8: on the item-selection screen, the two-key `g g` sequence works
as specified: a first `g` only arms the awaiting-second-key flag (the
collections, hence the selection, are untouched and no storage call is
made); a second `g` immediately after completes the jump — the selected
list's item selection becomes index 0 — and clears the flag; any other
key while the flag is armed is handled exactly as it would be with the
flag clear (the flag is dropped and the key is processed as itself, not
consumed as a second `g`). -/
theorem c8_g_sequence :
    (∀ (ok : Bool) (loaded : List UIListM) (app : AppM) (res : AppM × List StorageCall),
        app.current_screen = ScreenM.itemSelection →
        app.awaiting_second_g = false →
        handleKeyEvent ok loaded app { code := .char 'g', shift := false, ctrl := false }
          = some res →
        res.1.awaiting_second_g = true ∧
        res.1.lists_component = app.lists_component ∧
        res.1.current_screen = ScreenM.itemSelection ∧ res.2 = []) ∧
    (∀ (ok : Bool) (loaded : List UIListM) (app : AppM) (res : AppM × List StorageCall)
        (l : UIListM),
        app.current_screen = ScreenM.itemSelection →
        app.awaiting_second_g = true →
        app.lists_component.get_selected_list = some l →
        handleKeyEvent ok loaded app { code := .char 'g', shift := false, ctrl := false }
          = some res →
        res.1.awaiting_second_g = false ∧
        res.1.lists_component.get_selected_list
          = some { l with item_state := { selected := some 0 } } ∧ res.2 = []) ∧
    (∀ (ok : Bool) (loaded : List UIListM) (app : AppM) (key : KeyEventM),
        app.current_screen = ScreenM.itemSelection →
        key.code ≠ KeyCodeM.char 'g' →
        handleKeyEvent ok loaded { app with awaiting_second_g := true } key
          = handleKeyEvent ok loaded { app with awaiting_second_g := false } key) := by
  refine ⟨?_, ?_, ?_⟩
  · intro ok loaded app res hscr haw h
    simp only [handleKeyEvent, hscr] at h
    unfold handle_item_selection_screen_key at h
    rw [global_first_g app hscr haw] at h
    simp at h
    refine ⟨?_, ?_, ?_, ?_⟩ <;> (rw [← h]; try rfl)
    exact hscr
  · intro ok loaded app res l hscr haw hsel h
    simp only [handleKeyEvent, hscr] at h
    unfold handle_item_selection_screen_key at h
    rw [global_second_g app hscr haw] at h
    simp [withSelectedList, hsel] at h
    refine ⟨?_, ?_, ?_⟩
    · rw [← h]
    · rw [← h]
      exact get_selected_after_set _ _ _ hsel
    · rw [← h]
  · intro ok loaded app key hscr hkg
    obtain ⟨cs, las, hexit, aw, la, nm, kb, lc, istate, dbl, cd, cdn, sdi, pdl, pdd⟩ := app
    replace hscr : cs = ScreenM.itemSelection := hscr
    subst hscr
    simp only [handleKeyEvent]
    exact item_handler_awaiting_irrelevant ok
      ⟨ScreenM.itemSelection, las, hexit, true, la, nm, kb, lc, istate, dbl, cd, cdn,
        sdi, pdl, pdd⟩ key hkg

/-- Concrete result of pressing `g` on `baseApp` (first key of the
sequence). -/
def c8wRes : AppM × List StorageCall :=
  ({ baseApp with
     last_active_screen := .itemSelection
     awaiting_second_g := true
     keys_buffer := [(['g'], false)] },
   [])

/-- Witness for `c8_g_sequence`: pressing `g` on `baseApp` arms the
flag without touching the collections. -/
theorem c8_g_sequence_witness :
    c8wRes.1.awaiting_second_g = true ∧
    c8wRes.1.lists_component = baseApp.lists_component ∧
    c8wRes.1.current_screen = ScreenM.itemSelection ∧ c8wRes.2 = [] :=
  c8_g_sequence.1 true [] baseApp c8wRes rfl rfl (by decide)

/-- Is this storage call the delegated delete of a list? -/
def isDeleteListCall : StorageCall → Bool
  | .deleteList _ => true
  | _ => false

/-- Is this storage call the delegated delete (config removal) of a
database? -/
def isDeleteDbCall : StorageCall → Bool
  | .deleteDb _ => true
  | _ => false

/-- Is this storage call the delegated delete of an item? -/
def isDeleteItemCall : StorageCall → Bool
  | .deleteItem _ => true
  | _ => false

/-- Storage calls that delete no entity at all. -/
def benignB (x : StorageCall) : Bool :=
  !(isDeleteListCall x || isDeleteDbCall x || isDeleteItemCall x)

theorem withSelectedList_all (p : StorageCall → Bool) (app : AppM)
    (f : UIListM → Option (UIListM × List StorageCall)) (res : AppM × List StorageCall)
    (h : withSelectedList app f = some res)
    (hf : ∀ l r, f l = some r → r.2.all p = true) :
    res.2.all p = true := by
  unfold withSelectedList at h
  split at h
  · rw [← Option.some.inj h]
    rfl
  · rename_i l hl
    split at h
    · exact Option.noConfusion h
    · rename_i l2 calls hr
      rw [← Option.some.inj h]
      exact hf l (l2, calls) hr

theorem move_list_up_calls (ok : Bool) (c : ListsComponentM) :
    ((move_selected_list_up_call ok c).2).all benignB = true := by
  unfold move_selected_list_up_call
  repeat' split
  all_goals rfl

theorem move_list_down_calls (ok : Bool) (c : ListsComponentM) :
    ((move_selected_list_down_call ok c).2).all benignB = true := by
  unfold move_selected_list_down_call
  repeat' split
  all_goals rfl

theorem move_item_up_calls (ok : Bool) (l : UIListM) (n : Nat) (r : UIListM × List StorageCall)
    (h : move_item_up_call ok l n = some r) : r.2.all benignB = true := by
  unfold move_item_up_call at h
  repeat' split at h
  all_goals first
    | exact Option.noConfusion h
    | (rw [← Option.some.inj h]; rfl)

theorem move_item_down_calls (ok : Bool) (l : UIListM) (n : Nat) (r : UIListM × List StorageCall)
    (h : move_item_down_call ok l n = some r) : r.2.all benignB = true := by
  unfold move_item_down_call at h
  repeat' split at h
  all_goals first
    | exact Option.noConfusion h
    | (rw [← Option.some.inj h]; rfl)

theorem toggle_item_calls (ok : Bool) (l : UIListM) (r : UIListM × List StorageCall)
    (h : toggle_item_done_call ok l = some r) : r.2.all benignB = true := by
  unfold toggle_item_done_call at h
  repeat' split at h
  all_goals first
    | exact Option.noConfusion h
    | (rw [← Option.some.inj h]; rfl)

theorem create_list_call_calls (ok : Bool) (c : ListsComponentM) (name : List Char) :
    ((create_list_call ok c name).2).all benignB = true := by
  unfold create_list_call
  split <;> rfl

theorem update_list_call_calls (ok : Bool) (c : ListsComponentM) (name : List Char) :
    ((update_list_call ok c name).2.1).all benignB = true := by
  unfold update_list_call
  repeat' split
  all_goals rfl

theorem create_item_call_calls (ok : Bool) (l : UIListM) (name : List Char) :
    ((create_item_call ok l name).2).all benignB = true := by
  unfold create_item_call
  split <;> rfl

theorem update_item_call_calls (ok : Bool) (l : UIListM) (name : List Char)
    (r : UIListM × List StorageCall × Bool) (h : update_item_call ok l name = some r) :
    r.2.1.all benignB = true := by
  unfold update_item_call at h
  repeat' split at h
  all_goals first
    | exact Option.noConfusion h
    | (rw [← Option.some.inj h]; rfl)

theorem switch_db_call_calls (ok : Bool) (loaded : List UIListM) (app : AppM) :
    ((switch_to_selected_db_call ok loaded app).2).all benignB = true := by
  unfold switch_to_selected_db_call
  repeat' split
  all_goals rfl

theorem set_default_call_calls (ok : Bool) (app : AppM) :
    ((set_selected_db_as_default_call ok app).2).all benignB = true := by
  unfold set_selected_db_as_default_call
  repeat' split
  all_goals rfl

theorem modify_db_call_calls (app : AppM) (name : List Char) :
    ((modify_selected_db_call app name).2).all benignB = true := by
  unfold modify_selected_db_call
  repeat' split
  all_goals rfl

theorem create_db_call_calls (ok : Bool) (app : AppM) (name : List Char) :
    ((create_new_database_call ok app name).2.1).all benignB = true := by
  unfold create_new_database_call
  split <;> rfl

theorem delete_item_call_noLDb (ok : Bool) (l : UIListM) (r : UIListM × List StorageCall)
    (h : delete_selected_item_call ok l = some r) :
    r.2.all (fun x => !(isDeleteListCall x || isDeleteDbCall x)) = true := by
  unfold delete_selected_item_call at h
  repeat' split at h
  all_goals first
    | exact Option.noConfusion h
    | (rw [← Option.some.inj h]; rfl)

theorem delete_list_call_noDbItem (ok : Bool) (c : ListsComponentM)
    (r : ListsComponentM × List StorageCall) (h : delete_selected_list_call ok c = some r) :
    r.2.all (fun x => !(isDeleteDbCall x || isDeleteItemCall x)) = true := by
  unfold delete_selected_list_call at h
  repeat' split at h
  all_goals first
    | exact Option.noConfusion h
    | (rw [← Option.some.inj h]; rfl)

theorem delete_db_call_noListItem (app : AppM) :
    ((delete_selected_db_call app).2).all
      (fun x => !(isDeleteListCall x || isDeleteItemCall x)) = true := by
  unfold delete_selected_db_call
  repeat' split
  all_goals rfl

theorem any_eq_false_of_all (calls : List StorageCall) (p q : StorageCall → Bool)
    (hpq : ∀ x, p x = true → q x = false)
    (h : calls.all p = true) : calls.any q = false := by
  rw [List.any_eq_false]
  intro x hx
  have hb := List.all_eq_true.mp h x hx
  simp [hpq x hb]

theorem benign_no_deleteList (x : StorageCall) (h : benignB x = true) :
    isDeleteListCall x = false := by
  cases x <;> simp_all [benignB, isDeleteListCall, isDeleteDbCall, isDeleteItemCall]

theorem benign_no_deleteDb (x : StorageCall) (h : benignB x = true) :
    isDeleteDbCall x = false := by
  cases x <;> simp_all [benignB, isDeleteListCall, isDeleteDbCall, isDeleteItemCall]

theorem benign_no_deleteItem (x : StorageCall) (h : benignB x = true) :
    isDeleteItemCall x = false := by
  cases x <;> simp_all [benignB, isDeleteListCall, isDeleteDbCall, isDeleteItemCall]

theorem list_handler_calls_benign (ok : Bool) (app : AppM) (key : KeyEventM)
    (res : AppM × List StorageCall)
    (h : handle_list_selection_screen_key ok app key = some res) :
    res.2.all benignB = true := by
  unfold handle_list_selection_screen_key at h
  dsimp only at h
  repeat' split at h
  all_goals first
    | exact Option.noConfusion h
    | (rw [← Option.some.inj h]; rfl)
    | (rw [← Option.some.inj h]; exact move_list_up_calls ok _)
    | (rw [← Option.some.inj h]; exact move_list_down_calls ok _)
    | exact withSelectedList_all benignB _ _ _ h
        (fun l r hr => by rw [← Option.some.inj hr]; rfl)

theorem itemShiftG_calls (a : AppM) (res : AppM × List StorageCall)
    (h : itemShiftG a = some res) : res.2.all benignB = true := by
  unfold itemShiftG at h
  refine withSelectedList_all benignB _ _ _ h ?_
  intro l r hr
  repeat' split at hr
  all_goals first
    | exact Option.noConfusion hr
    | (rw [← Option.some.inj hr]; rfl)

theorem all_benign_noLDb (calls : List StorageCall) (h : calls.all benignB = true) :
    calls.all (fun x => !(isDeleteListCall x || isDeleteDbCall x)) = true := by
  rw [List.all_eq_true] at h ⊢
  intro x hx
  have hb := h x hx
  cases x <;> simp_all [benignB, isDeleteListCall, isDeleteDbCall, isDeleteItemCall]

set_option maxHeartbeats 2000000 in
theorem item_handler_calls_noLDb (ok : Bool) (app : AppM) (key : KeyEventM)
    (res : AppM × List StorageCall)
    (h : handle_item_selection_screen_key ok app key = some res) :
    res.2.all (fun x => !(isDeleteListCall x || isDeleteDbCall x)) = true := by
  unfold handle_item_selection_screen_key at h
  dsimp only at h
  repeat' split at h
  all_goals first
    | exact Option.noConfusion h
    | (rw [← Option.some.inj h]; rfl)
    | exact withSelectedList_all _ _ _ _ h
        (fun l r hr => by rw [← Option.some.inj hr]; rfl)
    | exact withSelectedList_all _ _ _ _ h
        (fun l r hr => all_benign_noLDb _ (move_item_up_calls ok l _ r hr))
    | exact withSelectedList_all _ _ _ _ h
        (fun l r hr => all_benign_noLDb _ (move_item_down_calls ok l _ r hr))
    | exact withSelectedList_all _ _ _ _ h
        (fun l r hr => all_benign_noLDb _ (toggle_item_calls ok l r hr))
    | exact withSelectedList_all _ _ _ _ h
        (fun l r hr => delete_item_call_noLDb ok l r hr)
    | exact all_benign_noLDb _ (itemShiftG_calls _ _ h)
    | (rename_i a calls hw hcond
       rw [← Option.some.inj h]
       have hb := withSelectedList_all (fun x => !(isDeleteListCall x || isDeleteDbCall x))
         _ _ _ hw (fun l r hr => by rw [← Option.some.inj hr]; rfl)
       exact hb)
    | (rename_i a calls heq
       rw [← Option.some.inj h]
       have hb := withSelectedList_all (fun x => !(isDeleteListCall x || isDeleteDbCall x))
         _ _ _ heq (fun l r hr => all_benign_noLDb _ (move_item_up_calls ok l _ r hr))
       exact hb)
    | (rename_i a calls heq
       rw [← Option.some.inj h]
       have hb := withSelectedList_all (fun x => !(isDeleteListCall x || isDeleteDbCall x))
         _ _ _ heq (fun l r hr => all_benign_noLDb _ (move_item_down_calls ok l _ r hr))
       exact hb)

set_option maxHeartbeats 2000000 in
theorem item_handler_deleteItem_key (ok : Bool) (app : AppM) (key : KeyEventM)
    (res : AppM × List StorageCall)
    (h : handle_item_selection_screen_key ok app key = some res)
    (hany : res.2.any isDeleteItemCall = true) :
    key.code = KeyCodeM.char 'd' ∧ key.shift = false := by
  unfold handle_item_selection_screen_key at h
  dsimp only at h
  repeat' split at h
  all_goals first
    | exact Option.noConfusion h
    | (rw [← Option.some.inj h] at hany; exact Bool.noConfusion hany)
    | (have hb := withSelectedList_all benignB _ _ _ h
         (fun l r hr => by rw [← Option.some.inj hr]; rfl)
       have hfalse := any_eq_false_of_all _ _ _ benign_no_deleteItem hb
       exact Bool.noConfusion (hany.symm.trans hfalse))
    | (have hb := withSelectedList_all benignB _ _ _ h
         (fun l r hr => toggle_item_calls ok l r hr)
       have hfalse := any_eq_false_of_all _ _ _ benign_no_deleteItem hb
       exact Bool.noConfusion (hany.symm.trans hfalse))
    | (have hb := itemShiftG_calls _ _ h
       have hfalse := any_eq_false_of_all _ _ _ benign_no_deleteItem hb
       exact Bool.noConfusion (hany.symm.trans hfalse))
    | (rename_i a calls hw hcond
       have hb := withSelectedList_all benignB _ _ _ hw
         (fun l r hr => by rw [← Option.some.inj hr]; rfl)
       have hfalse : calls.any isDeleteItemCall = false :=
         any_eq_false_of_all _ _ _ benign_no_deleteItem hb
       rw [← Option.some.inj h] at hany
       have hc2 : calls.any isDeleteItemCall = true := hany
       exact Bool.noConfusion (hc2.symm.trans hfalse))
    | (rename_i a calls hw
       have hb := withSelectedList_all benignB _ _ _ hw
         (fun l r hr => move_item_up_calls ok l _ r hr)
       have hfalse : calls.any isDeleteItemCall = false :=
         any_eq_false_of_all _ _ _ benign_no_deleteItem hb
       rw [← Option.some.inj h] at hany
       have hc2 : calls.any isDeleteItemCall = true := hany
       exact Bool.noConfusion (hc2.symm.trans hfalse))
    | (rename_i a calls hw
       have hb := withSelectedList_all benignB _ _ _ hw
         (fun l r hr => move_item_down_calls ok l _ r hr)
       have hfalse : calls.any isDeleteItemCall = false :=
         any_eq_false_of_all _ _ _ benign_no_deleteItem hb
       rw [← Option.some.inj h] at hany
       have hc2 : calls.any isDeleteItemCall = true := hany
       exact Bool.noConfusion (hc2.symm.trans hfalse))
    | simp_all

theorem addmod_list_handler_calls_benign (ok : Bool) (app : AppM) (key : KeyEventM)
    (res : AppM × List StorageCall)
    (h : handle_add_or_modify_list_screen_key ok app key = some res) :
    res.2.all benignB = true := by
  unfold handle_add_or_modify_list_screen_key at h
  dsimp only at h
  repeat' split at h
  all_goals first
    | exact Option.noConfusion h
    | (rw [← Option.some.inj h]; rfl)
    | (rw [← Option.some.inj h]; exact update_list_call_calls ok _ _)
    | (rw [← Option.some.inj h]; exact create_list_call_calls ok _ _)

theorem addmod_item_handler_calls_benign (ok : Bool) (app : AppM) (key : KeyEventM)
    (res : AppM × List StorageCall)
    (h : handle_add_or_modify_item_screen_key ok app key = some res) :
    res.2.all benignB = true := by
  unfold handle_add_or_modify_item_screen_key at h
  dsimp only at h
  repeat' split at h
  all_goals first
    | exact Option.noConfusion h
    | (rw [← Option.some.inj h]; rfl)
    | (rename_i l2 calls success hw hcond
       rw [← Option.some.inj h]
       have hb := update_item_call_calls ok _ _ _ hw
       exact hb)
    | (rw [← Option.some.inj h]; exact create_item_call_calls ok _ _)

theorem add_db_handler_calls_benign (ok : Bool) (app : AppM) (key : KeyEventM)
    (res : AppM × List StorageCall)
    (h : handle_add_db_screen_key ok app key = some res) :
    res.2.all benignB = true := by
  unfold handle_add_db_screen_key at h
  dsimp only at h
  repeat' split at h
  all_goals first
    | exact Option.noConfusion h
    | (rw [← Option.some.inj h]; rfl)
    | (rw [← Option.some.inj h]; exact create_db_call_calls ok _ _)

theorem modify_db_handler_calls_benign (app : AppM) (key : KeyEventM)
    (res : AppM × List StorageCall)
    (h : handle_modify_db_screen_key app key = some res) :
    res.2.all benignB = true := by
  unfold handle_modify_db_screen_key at h
  dsimp only at h
  repeat' split at h
  all_goals first
    | exact Option.noConfusion h
    | (rw [← Option.some.inj h]; rfl)
    | (rw [← Option.some.inj h]; exact modify_db_call_calls _ _)

theorem change_db_handler_calls_benign (ok : Bool) (loaded : List UIListM) (app : AppM)
    (key : KeyEventM) (res : AppM × List StorageCall)
    (h : handle_change_db_screen_key ok loaded app key = some res) :
    res.2.all benignB = true := by
  unfold handle_change_db_screen_key at h
  dsimp only at h
  repeat' split at h
  all_goals first
    | exact Option.noConfusion h
    | (rw [← Option.some.inj h]; rfl)
    | (rw [← Option.some.inj h]; exact switch_db_call_calls ok loaded _)
    | (rw [← Option.some.inj h]
       rw [List.all_append]
       rw [switch_db_call_calls ok loaded _, set_default_call_calls ok _]
       rfl)

theorem list_confirm_handler_calls (ok : Bool) (app : AppM) (key : KeyEventM)
    (res : AppM × List StorageCall)
    (h : handle_delete_list_confirmation_key ok app key = some res) :
    res.2.all (fun x => !(isDeleteDbCall x || isDeleteItemCall x)) = true ∧
    (res.2.any isDeleteListCall = true →
      key.code = KeyCodeM.char 'y' ∨ key.code = KeyCodeM.char 'Y') := by
  unfold handle_delete_list_confirmation_key at h
  try dsimp only at h
  repeat' split at h
  all_goals first
    | exact Option.noConfusion h
    | (refine ⟨?_, fun hany => ?_⟩
       · rw [← Option.some.inj h]; rfl
       · rw [← Option.some.inj h] at hany
         exact Bool.noConfusion hany)
    | (rename_i c2 calls hw
       refine ⟨?_, fun _ => ?_⟩
       · rw [← Option.some.inj h]
         have hb := delete_list_call_noDbItem ok _ _ hw
         exact hb
       · aesop)

theorem db_confirm_handler_calls (app : AppM) (key : KeyEventM)
    (res : AppM × List StorageCall)
    (h : handle_delete_database_confirmation_key app key = some res) :
    res.2.all (fun x => !(isDeleteListCall x || isDeleteItemCall x)) = true ∧
    (res.2.any isDeleteDbCall = true →
      key.code = KeyCodeM.char 'y' ∨ key.code = KeyCodeM.char 'Y') := by
  unfold handle_delete_database_confirmation_key at h
  try dsimp only at h
  repeat' split at h
  all_goals first
    | exact Option.noConfusion h
    | (refine ⟨?_, fun hany => ?_⟩
       · rw [← Option.some.inj h]; rfl
       · rw [← Option.some.inj h] at hany
         exact Bool.noConfusion hany)
    | (refine ⟨?_, fun _ => ?_⟩
       · rw [← Option.some.inj h]
         exact delete_db_call_noListItem _
       · aesop)

theorem noLDb_no_deleteList (x : StorageCall)
    (h : (!(isDeleteListCall x || isDeleteDbCall x)) = true) : isDeleteListCall x = false := by
  cases x <;> simp_all [isDeleteListCall, isDeleteDbCall]

theorem noLDb_no_deleteDb (x : StorageCall)
    (h : (!(isDeleteListCall x || isDeleteDbCall x)) = true) : isDeleteDbCall x = false := by
  cases x <;> simp_all [isDeleteListCall, isDeleteDbCall]

theorem noDbItem_no_deleteDb (x : StorageCall)
    (h : (!(isDeleteDbCall x || isDeleteItemCall x)) = true) : isDeleteDbCall x = false := by
  cases x <;> simp_all [isDeleteItemCall, isDeleteDbCall]

theorem noDbItem_no_deleteItem (x : StorageCall)
    (h : (!(isDeleteDbCall x || isDeleteItemCall x)) = true) : isDeleteItemCall x = false := by
  cases x <;> simp_all [isDeleteItemCall, isDeleteDbCall]

theorem noListItem_no_deleteList (x : StorageCall)
    (h : (!(isDeleteListCall x || isDeleteItemCall x)) = true) : isDeleteListCall x = false := by
  cases x <;> simp_all [isDeleteItemCall, isDeleteListCall]

theorem noListItem_no_deleteItem (x : StorageCall)
    (h : (!(isDeleteListCall x || isDeleteItemCall x)) = true) : isDeleteItemCall x = false := by
  cases x <;> simp_all [isDeleteItemCall, isDeleteListCall]

theorem global_d_key (app : AppM) (key : KeyEventM)
    (h : key.code = KeyCodeM.char 'd') :
    (matches_global_keys app key).1 = false ∧
    (matches_global_keys app key).2.lists_component = app.lists_component ∧
    (matches_global_keys app key).2.current_screen = app.current_screen ∧
    (matches_global_keys app key).2.pending_delete_list_name
      = app.pending_delete_list_name ∧
    (matches_global_keys app key).2.pending_delete_db_name
      = app.pending_delete_db_name ∧
    (matches_global_keys app key).2.dbs = app.dbs ∧
    (matches_global_keys app key).2.selected_db_index = app.selected_db_index := by
  unfold matches_global_keys globalTail format_keycode_for_buffer
  rw [h]
  by_cases hm : app.current_screen ∈ mainScreens <;> simp [hm, h]

/-- C2 (amended): deletion of a LIST or of a DATABASE is never executed
by the key press that requests it: the delegated delete call can only
be emitted while the corresponding confirmation screen is active and
the key is an affirmative `y`/`Y`; on the list-selection screen the
`d` key only transitions to the confirmation screen carrying the
selected list's name (no storage call), and on the database-selection
screen it transitions to the database confirmation carrying the
selected database's name.  Deletion of an ITEM, however, bypasses the
confirmation flow entirely: a delegated item delete can only be
emitted by the plain `d` key on the item-selection screen, where it
executes within that very key press. -/
theorem c2_amended_confirmation_flow :
    ∀ (ok : Bool) (loaded : List UIListM) (app : AppM) (key : KeyEventM)
      (res : AppM × List StorageCall),
    handleKeyEvent ok loaded app key = some res →
    ((res.2.any isDeleteListCall = true →
        app.current_screen = ScreenM.deleteListConfirmation ∧
        (key.code = KeyCodeM.char 'y' ∨ key.code = KeyCodeM.char 'Y')) ∧
     (res.2.any isDeleteDbCall = true →
        app.current_screen = ScreenM.deleteDatabaseConfirmation ∧
        (key.code = KeyCodeM.char 'y' ∨ key.code = KeyCodeM.char 'Y')) ∧
     (res.2.any isDeleteItemCall = true →
        app.current_screen = ScreenM.itemSelection ∧
        key.code = KeyCodeM.char 'd' ∧ key.shift = false) ∧
     ((app.current_screen = ScreenM.listSelection ∧ key.shift = false ∧
         key.code = KeyCodeM.char 'd') →
       res.2 = [] ∧
       ((app.lists_component.get_selected_list = none ∧
           res.1.current_screen = ScreenM.listSelection ∧
           res.1.pending_delete_list_name = app.pending_delete_list_name) ∨
        (∃ l, app.lists_component.get_selected_list = some l ∧
           res.1.current_screen = ScreenM.deleteListConfirmation ∧
           res.1.pending_delete_list_name = some l.name))) ∧
     ((app.current_screen = ScreenM.dbSelection ∧ key.code = KeyCodeM.char 'd') →
       res.2 = [] ∧
       ∃ db, app.dbs.get? app.selected_db_index = some db ∧
         res.1.current_screen = ScreenM.deleteDatabaseConfirmation ∧
         res.1.pending_delete_db_name = some db)) := by
  intro ok loaded app key res h
  refine ⟨?_, ?_, ?_, ?_, ?_⟩
  · intro hany
    cases hscr : app.current_screen <;> simp only [handleKeyEvent, hscr] at h
    case dbSelection =>
      have hb := change_db_handler_calls_benign ok loaded app key res h
      exact absurd hany (by
        simp [any_eq_false_of_all _ _ _ benign_no_deleteList hb])
    case listSelection =>
      have hb := list_handler_calls_benign ok app key res h
      exact absurd hany (by
        simp [any_eq_false_of_all _ _ _ benign_no_deleteList hb])
    case itemSelection =>
      have hb := item_handler_calls_noLDb ok app key res h
      exact absurd hany (by
        simp [any_eq_false_of_all _ _ _ noLDb_no_deleteList hb])
    case addList =>
      have hb := addmod_list_handler_calls_benign ok app key res h
      exact absurd hany (by
        simp [any_eq_false_of_all _ _ _ benign_no_deleteList hb])
    case modifyList =>
      have hb := addmod_list_handler_calls_benign ok app key res h
      exact absurd hany (by
        simp [any_eq_false_of_all _ _ _ benign_no_deleteList hb])
    case addItem =>
      have hb := addmod_item_handler_calls_benign ok app key res h
      exact absurd hany (by
        simp [any_eq_false_of_all _ _ _ benign_no_deleteList hb])
    case modifyItem =>
      have hb := addmod_item_handler_calls_benign ok app key res h
      exact absurd hany (by
        simp [any_eq_false_of_all _ _ _ benign_no_deleteList hb])
    case addDB =>
      have hb := add_db_handler_calls_benign ok app key res h
      exact absurd hany (by
        simp [any_eq_false_of_all _ _ _ benign_no_deleteList hb])
    case modifyDB =>
      have hb := modify_db_handler_calls_benign app key res h
      exact absurd hany (by
        simp [any_eq_false_of_all _ _ _ benign_no_deleteList hb])
    case help =>
      rw [← Option.some.inj h] at hany
      exact Bool.noConfusion hany
    case leaderHelp =>
      rw [← Option.some.inj h] at hany
      exact Bool.noConfusion hany
    case deleteListConfirmation =>
      exact ⟨rfl, (list_confirm_handler_calls ok app key res h).2 hany⟩
    case deleteDatabaseConfirmation =>
      have hb := (db_confirm_handler_calls app key res h).1
      exact absurd hany (by
        simp [any_eq_false_of_all _ _ _ noListItem_no_deleteList hb])
  · intro hany
    cases hscr : app.current_screen <;> simp only [handleKeyEvent, hscr] at h
    case dbSelection =>
      have hb := change_db_handler_calls_benign ok loaded app key res h
      exact absurd hany (by
        simp [any_eq_false_of_all _ _ _ benign_no_deleteDb hb])
    case listSelection =>
      have hb := list_handler_calls_benign ok app key res h
      exact absurd hany (by
        simp [any_eq_false_of_all _ _ _ benign_no_deleteDb hb])
    case itemSelection =>
      have hb := item_handler_calls_noLDb ok app key res h
      exact absurd hany (by
        simp [any_eq_false_of_all _ _ _ noLDb_no_deleteDb hb])
    case addList =>
      have hb := addmod_list_handler_calls_benign ok app key res h
      exact absurd hany (by
        simp [any_eq_false_of_all _ _ _ benign_no_deleteDb hb])
    case modifyList =>
      have hb := addmod_list_handler_calls_benign ok app key res h
      exact absurd hany (by
        simp [any_eq_false_of_all _ _ _ benign_no_deleteDb hb])
    case addItem =>
      have hb := addmod_item_handler_calls_benign ok app key res h
      exact absurd hany (by
        simp [any_eq_false_of_all _ _ _ benign_no_deleteDb hb])
    case modifyItem =>
      have hb := addmod_item_handler_calls_benign ok app key res h
      exact absurd hany (by
        simp [any_eq_false_of_all _ _ _ benign_no_deleteDb hb])
    case addDB =>
      have hb := add_db_handler_calls_benign ok app key res h
      exact absurd hany (by
        simp [any_eq_false_of_all _ _ _ benign_no_deleteDb hb])
    case modifyDB =>
      have hb := modify_db_handler_calls_benign app key res h
      exact absurd hany (by
        simp [any_eq_false_of_all _ _ _ benign_no_deleteDb hb])
    case help =>
      rw [← Option.some.inj h] at hany
      exact Bool.noConfusion hany
    case leaderHelp =>
      rw [← Option.some.inj h] at hany
      exact Bool.noConfusion hany
    case deleteListConfirmation =>
      have hb := (list_confirm_handler_calls ok app key res h).1
      exact absurd hany (by
        simp [any_eq_false_of_all _ _ _ noDbItem_no_deleteDb hb])
    case deleteDatabaseConfirmation =>
      exact ⟨rfl, (db_confirm_handler_calls app key res h).2 hany⟩
  · intro hany
    cases hscr : app.current_screen <;> simp only [handleKeyEvent, hscr] at h
    case dbSelection =>
      have hb := change_db_handler_calls_benign ok loaded app key res h
      exact absurd hany (by
        simp [any_eq_false_of_all _ _ _ benign_no_deleteItem hb])
    case listSelection =>
      have hb := list_handler_calls_benign ok app key res h
      exact absurd hany (by
        simp [any_eq_false_of_all _ _ _ benign_no_deleteItem hb])
    case itemSelection =>
      exact ⟨rfl, item_handler_deleteItem_key ok app key res h hany⟩
    case addList =>
      have hb := addmod_list_handler_calls_benign ok app key res h
      exact absurd hany (by
        simp [any_eq_false_of_all _ _ _ benign_no_deleteItem hb])
    case modifyList =>
      have hb := addmod_list_handler_calls_benign ok app key res h
      exact absurd hany (by
        simp [any_eq_false_of_all _ _ _ benign_no_deleteItem hb])
    case addItem =>
      have hb := addmod_item_handler_calls_benign ok app key res h
      exact absurd hany (by
        simp [any_eq_false_of_all _ _ _ benign_no_deleteItem hb])
    case modifyItem =>
      have hb := addmod_item_handler_calls_benign ok app key res h
      exact absurd hany (by
        simp [any_eq_false_of_all _ _ _ benign_no_deleteItem hb])
    case addDB =>
      have hb := add_db_handler_calls_benign ok app key res h
      exact absurd hany (by
        simp [any_eq_false_of_all _ _ _ benign_no_deleteItem hb])
    case modifyDB =>
      have hb := modify_db_handler_calls_benign app key res h
      exact absurd hany (by
        simp [any_eq_false_of_all _ _ _ benign_no_deleteItem hb])
    case help =>
      rw [← Option.some.inj h] at hany
      exact Bool.noConfusion hany
    case leaderHelp =>
      rw [← Option.some.inj h] at hany
      exact Bool.noConfusion hany
    case deleteListConfirmation =>
      have hb := (list_confirm_handler_calls ok app key res h).1
      exact absurd hany (by
        simp [any_eq_false_of_all _ _ _ noDbItem_no_deleteItem hb])
    case deleteDatabaseConfirmation =>
      have hb := (db_confirm_handler_calls app key res h).1
      exact absurd hany (by
        simp [any_eq_false_of_all _ _ _ noListItem_no_deleteItem hb])
  · rintro ⟨hscr, hshift, hcode⟩
    have hg := global_d_key app key hcode
    simp only [handleKeyEvent, hscr] at h
    unfold handle_list_selection_screen_key at h
    simp [hg.1, hshift, hcode, hg.2.1] at h
    cases hsel : app.lists_component.get_selected_list with
    | none =>
        simp only [hsel] at h
        have h2 := Option.some.inj h
        refine ⟨by rw [← h2], Or.inl ⟨rfl, ?_, ?_⟩⟩
        · rw [← h2]
          exact hg.2.2.1.trans hscr
        · rw [← h2]
          exact hg.2.2.2.1
    | some l =>
        simp only [hsel] at h
        have h2 := Option.some.inj h
        refine ⟨by rw [← h2], Or.inr ⟨l, rfl, ?_, ?_⟩⟩
        · rw [← h2]
        · rw [← h2]
  · rintro ⟨hscr, hcode⟩
    have hg := global_d_key app key hcode
    simp only [handleKeyEvent, hscr] at h
    unfold handle_change_db_screen_key at h
    simp [hg.1, hcode, hg.2.2.2.2.2.1, hg.2.2.2.2.2.2] at h
    cases hdb : app.dbs[app.selected_db_index]? with
    | none =>
        simp only [hdb] at h
        exact Option.noConfusion h
    | some db =>
        simp only [hdb] at h
        have h2 := Option.some.inj h
        refine ⟨by rw [← h2], db, ?_, ?_, ?_⟩
        · rw [List.get?_eq_getElem?]
          exact hdb
        · rw [← h2]
        · rw [← h2]

/-- Concrete input for the witness of `c2_amended_confirmation_flow`:
the base application looking at the list-selection screen. -/
def c2wApp : AppM := { baseApp with current_screen := .listSelection }

/-- Concrete result of pressing `d` on `c2wApp`. -/
def c2wRes : AppM × List StorageCall :=
  ({ current_screen := .deleteListConfirmation
     last_active_screen := .listSelection
     exit := false
     awaiting_second_g := false
     leader_awaiting := false
     number_modifier := 0
     keys_buffer := [(['d'], false)]
     lists_component :=
       { lists := [{ name := ['L'], items := [{ name := ['X'], is_done := false }],
                     item_state := { selected := some 0 } }],
         list_state := { selected := some 0 } }
     input_state := InputStateM.new
     dbs := [['a']]
     config_default := ['a']
     current_db_name := ['a']
     selected_db_index := 0
     pending_delete_list_name := some ['L']
     pending_delete_db_name := none },
   [])

/-- Witness for `c2_amended_confirmation_flow`: pressing `d` on the
list-selection screen with list "L" selected emits no storage call,
moves to the delete-list confirmation screen and records the pending
name "L". -/
theorem c2_amended_confirmation_flow_witness :
    c2wRes.2 = [] ∧
    c2wRes.1.current_screen = ScreenM.deleteListConfirmation ∧
    c2wRes.1.pending_delete_list_name = some ['L'] := by
  have h := (c2_amended_confirmation_flow true [] c2wApp
      { code := KeyCodeM.char 'd', shift := false, ctrl := false } c2wRes
      (by decide)).2.2.2.1 ⟨by decide, by decide, by decide⟩
  rcases h with ⟨h1, h2 | ⟨l, hl, h3, h4⟩⟩
  · exact absurd h2.1 (by decide)
  · have hv : c2wApp.lists_component.get_selected_list
        = some { name := ['L'], items := [{ name := ['X'], is_done := false }],
                 item_state := { selected := some 0 } } := by decide
    have hle := Option.some.inj (hv.symm.trans hl)
    rw [← hle] at h4
    exact ⟨h1, h3, h4⟩
